import Mathlib

/-!
Verification of the InforKretz scale-synchronization system.

Shallow embedding of the wire-protocol codec, the protocol adapter's
record builders, the relation DAO / repository facades, the driver-file
mtime logic and the direct-TCP batch sender, with theorems settling the
frozen claims about them.

Strings are modelled as `List Char` (`Str` below); bytes as `Nat`.
Python `str.isdigit` / `str.strip` are modelled for the ASCII range.
-/

abbrev Str := List Char

/-- ASCII digit test, modelling Python `str.isdigit` per character
(ASCII range). -/
def isDigitC (c : Char) : Bool :=
  48 ≤ c.toNat && c.toNat ≤ 57

/-- Whitespace characters stripped by Python `str.strip()` (ASCII range). -/
def isSpaceC (c : Char) : Bool :=
  c.toNat == 32 || c.toNat == 9 || c.toNat == 10 || c.toNat == 13 ||
  c.toNat == 11 || c.toNat == 12

/-- Python `"".join(ch for ch in s if ch.isdigit())` / `re.sub(r"\D", "", s)`. -/
def onlyDigits (s : Str) : Str := s.filter isDigitC

/-- Python `s.isdigit()`: non-empty and all digits. -/
def pyIsdigit (s : Str) : Bool := !s.isEmpty && s.all isDigitC

/-- Python `s.strip()`. -/
def trimStr (s : Str) : Str :=
  ((s.dropWhile isSpaceC).reverse.dropWhile isSpaceC).reverse

/-- Python `s.rjust(w, c)`. -/
def rjust (c : Char) (w : Nat) (s : Str) : Str :=
  if w ≤ s.length then s else List.replicate (w - s.length) c ++ s

/-- Python `s.ljust(w, c)`. -/
def ljust (c : Char) (w : Nat) (s : Str) : Str :=
  if w ≤ s.length then s else s ++ List.replicate (w - s.length) c

/-- Python slice `s[-n:]` (for `n = 0` this is the whole string). -/
def pySliceLastN (s : Str) (n : Nat) : Str :=
  if n = 0 then s else s.drop (s.length - n)

/-- Value of an all-digit string, as Python `int` on a digit string. -/
def natOfDigits (s : Str) : Nat :=
  s.foldl (fun a c => a * 10 + (c.toNat - 48)) 0

/-- Decimal digit string of a natural number, fuelled recursion (the
fuel argument only bounds the recursion depth; `n + 1` always
suffices). -/
def natToStrFuel : Nat → Nat → Str
  | 0, _ => []
  | fuel + 1, n =>
      if n < 10 then [Nat.digitChar n]
      else natToStrFuel fuel (n / 10) ++ [Nat.digitChar (n % 10)]

/-- Decimal digit string, as produced by Python `str` on a natural. -/
def natToStr (n : Nat) : Str := natToStrFuel (n + 1) n

/-- Python `str` of an `int` (sign handling). -/
def intToStr (i : Int) : Str :=
  if i < 0 then '-' :: natToStr i.natAbs else natToStr i.toNat

/-- Python `int(s)` for a stripped string: optional sign plus digits,
anything else raises (modelled by the caller's `except` value). -/
def pyIntParse? (s : Str) : Option Int :=
  match s with
  | [] => none
  | '-' :: rest => if pyIsdigit rest then some (-(natOfDigits rest : Int)) else none
  | '+' :: rest => if pyIsdigit rest then some (natOfDigits rest : Int) else none
  | _ => if pyIsdigit s then some (natOfDigits s : Int) else none

/-!
## Wire-protocol checksum (C1)

`GUI/envios_balanzas.py::_checksum_bytes` and
`GUI/kretz_driver.py::_checksum_bytes` — byte-identical bodies:
sum the payload, mask with `0xFF`, split nibbles, add `0x30`.
-/

/-- `_checksum_bytes` from the Scale Communication Service
(`envios_balanzas.py`): `total = sum(payload); b = total & 0xFF;
hi = (b >> 4) & 0x0F; lo = b & 0x0F; bytes([hi + 0x30, lo + 0x30])`. -/
def checksumBytesEnvios (payload : List Nat) : List Nat :=
  let total := payload.foldl (· + ·) 0
  let b := total &&& 0xFF
  let hi := (b >>> 4) &&& 0x0F
  let lo := b &&& 0x0F
  [hi + 0x30, lo + 0x30]

/-- `_checksum_bytes` from the Direct-TCP client (`kretz_driver.py`),
same computation as the service's copy. -/
def checksumBytesDriver (payload : List Nat) : List Nat :=
  let total := payload.foldl (· + ·) 0
  let b := total &&& 0xFF
  let hi := (b >>> 4) &&& 0x0F
  let lo := b &&& 0x0F
  [hi + 0x30, lo + 0x30]

/-!
## Numeric padding (C2)

`GUI/envios_balanzas.py::pad_num` and `GUI/kretz_adapter.py::_pad_num`.
-/

/-- `pad_num` from the Scale Communication Service:
`s = digits of str(valor); return s.rjust(width, "0")[:width]`. -/
def padNumSvc (valor : Str) (width : Nat) : Str :=
  let s := onlyDigits valor
  (rjust '0' width s).take width

/-- `_pad_num` from the Protocol Adapter:
`s = str(value or "").strip(); if not s.isdigit(): s = "0";
return s[-length:].rjust(length, "0")`. -/
def padNumAdapter (value : Str) (length : Nat) : Str :=
  let s := trimStr value
  let s := if pyIsdigit s then s else ['0']
  rjust '0' length (pySliceLastN s length)

/-- The claim's padding rule, from the spec's words: strip non-digits,
keep the rightmost `width` digits, left-pad with `'0'` to `width`. -/
def padSpecRule (valor : Str) (width : Nat) : Str :=
  let d := onlyDigits valor
  rjust '0' width (d.drop (d.length - width))


/-!
## PLU derivation (C3)

`db/dao_articulos_balanza.py::_plu4_from_cref_barcode` and the row
enrichment in `listar_para_deptos`; `GUI/kretz_adapter.py::_coerce_plu6`.
-/

/-- `_plu4_from_cref_barcode` from the articles DAO: digit-only CREF when
it has exactly 4 digits, else digits 2..6 of the digit-only barcode when
at least 6 are present, else empty. -/
def plu4FromCrefBarcode (cref codebar : Str) : Str :=
  let crefDigits := onlyDigits cref
  if crefDigits.length = 4 then crefDigits
  else
    let cb := onlyDigits codebar
    if 6 ≤ cb.length then (cb.drop 2).take 4
    else []

/-- The DAO's row enrichment: `PLU6 = plu4.rjust(6, "0") if plu4 else ""`. -/
def daoPlu6 (plu4 : Str) : Str :=
  if plu4.isEmpty then [] else rjust '0' 6 plu4

/-- The claim's PLU4 rule, from the spec's words: the reference code's
digits when they form exactly a 4-digit code, else characters 2..6 of
the digit-only barcode when it holds at least 6 digits, else empty. -/
def plu4SpecRule (cref codebar : Str) : Str :=
  let d := onlyDigits cref
  if d.length = 4 then d
  else
    let cb := onlyDigits codebar
    if 6 ≤ cb.length then (cb.drop 2).take 4 else []

/-- Article row as consumed by the Protocol Adapter: each field is the
textual form of the column's value, `[]` when the column is absent
(`str(_ci(it, ...) or "")`). -/
structure Item where
  cref : Str := []
  ccodebar : Str := []
  cgrpconta : Str := []
  cdetalle : Str := []
  npvp1 : Str := []
  cvencom : Str := []
  ctipoiva : Str := []
deriving DecidableEq

/-- `_coerce_plu6` from the Protocol Adapter: the trimmed CREF when it is
exactly 4 characters, all digits; otherwise the regex
`^\d` + `2 digits capturing the next 4` applied to the raw trimmed
barcode (its first 6 characters must be digits); `zfill(6)` the result. -/
def coercePlu6 (it : Item) : Option Str :=
  let cref := trimStr it.cref
  let ccb := trimStr it.ccodebar
  let base4 : Option Str :=
    if cref.length = 4 ∧ pyIsdigit cref = true then some cref
    else if 6 ≤ ccb.length ∧ (ccb.take 6).all isDigitC then
      some ((ccb.drop 2).take 4)
    else none
  base4.map (fun b => rjust '0' 6 b)

/-- `_coerce_dep3` from the Protocol Adapter: digits of CGRPCONTA, value
of the last 3 of them, `None` when empty or zero, else padded to 3. -/
def coerceDep3 (it : Item) : Option Str :=
  let s := onlyDigits it.cgrpconta
  if s.isEmpty then none
  else
    let n := natOfDigits (pySliceLastN s 3)
    if n = 0 then none
    else some (padNumAdapter (natToStr n) 3)

/-!
## Decimal arithmetic used by the adapter (C4, C5, C6)

Models `decimal.Decimal(s)` parsing (finite numerals: sign, digits,
optional fraction, optional exponent) and the half-even rounding used by
`quantize` / `round`. `Decimal` specials (NaN, Infinity) make the source
produce 0 through its `except` branch, as does a parse failure here.

`_price_to_width` runs its arithmetic under Python's *default* decimal
context: precision 28, `Emax = 999999`, rounding `ROUND_HALF_EVEN`, with
`InvalidOperation` and `Overflow` trapped. Three consequences are
modelled below:
* `Decimal(s)` construction from a string is exact and context-free;
* `Decimal(s) * 100` rounds the ideal product coefficient to 28
  significant digits, and signals `Overflow` — an exception the source
  does *not* catch — when the rounded result's adjusted exponent exceeds
  `Emax` (`decOverflow100`);
* `.quantize(Decimal("1"))` signals `InvalidOperation` — which the
  source *does* catch, yielding 0 cents — when the quantized integer
  needs more than 28 digits (`decCents100`).
-/

/-- Division rounding half to even on the magnitude (Python's default
`ROUND_HALF_EVEN` / built-in `round`). -/
def halfEvenDiv (n d : Nat) : Nat :=
  let q := n / d
  let r := n % d
  if 2 * r < d then q
  else if d < 2 * r then q + 1
  else if q % 2 = 0 then q else q + 1

/-- `int((Decimal value) * 100)` rounded half-even, for a parsed decimal
`m * 10 ^ scaleExp`. -/
def centsTimes100 (m scaleExp : Int) : Int :=
  let t := scaleExp + 2
  if 0 ≤ t then m * ((10 : Int) ^ t.toNat)
  else
    let d := (10 : Nat) ^ (-t).toNat
    if 0 ≤ m then (halfEvenDiv m.toNat d : Int)
    else -(halfEvenDiv m.natAbs d : Int)

/-- `int((Decimal(s) * 100).quantize(Decimal("1")))` under the default
decimal context, with the caught `InvalidOperation` path folded in, for
a parsed value `m * 10 ^ e` (`Decimal(s)` has coefficient `|m|` — string
construction drops leading zeros and keeps trailing ones, which is the
digit count of the integer `|m|` — and exponent `e`). The ideal product
has coefficient `|m| * 100` and exponent `e`. When that coefficient fits
the 28-digit precision the multiplication is exact, so the quantized
cents are the exact half-even rounding `centsTimes100 m e`, and
`quantize` signals `InvalidOperation` — caught by the source, giving
cents 0 — exactly when that integer needs more than 28 digits.
Otherwise the multiplication first rounds the coefficient half-even to
28 significant digits (shifting the exponent by `k`) and the quantize
step then applies to the rounded product. Inputs on which the
multiplication signals the *uncaught* `Overflow` (`decOverflow100`) make
the source raise instead of returning; the model stays total there and
every theorem about `_price_to_width` excludes them by hypothesis. -/
def decCents100 (m e : Int) : Int :=
  if m = 0 then 0
  else if (natToStr (m.natAbs * 100)).length ≤ 28 then
    if 28 < (natToStr (centsTimes100 m e).natAbs).length then 0
    else centsTimes100 m e
  else
    let c0 := m.natAbs * 100
    let k := (natToStr c0).length - 28
    let c1 := halfEvenDiv c0 (10 ^ k)
    let t1 : Int := e + (k : Int)
    let n : Nat :=
      if 0 ≤ t1 then c1 * 10 ^ t1.toNat
      else halfEvenDiv c1 (10 ^ (-t1).toNat)
    if 28 < (natToStr n).length then 0
    else if 0 ≤ m then (n : Int) else -(n : Int)

/-- Whether `Decimal(s) * 100` signals `Overflow` under the default
context for the parsed value `m * 10 ^ e`: the adjusted exponent of the
product — after its coefficient `|m| * 100` is rounded to the 28-digit
precision, which shifts the exponent by `k` — exceeds `Emax = 999999`.
`Overflow` is not among the exceptions `_price_to_width` catches, so the
source raises on these inputs. -/
def decOverflow100 (m e : Int) : Bool :=
  if m = 0 then false
  else
    let c0 := m.natAbs * 100
    let d0 := (natToStr c0).length
    let k := d0 - 28
    let c1 := if 28 < d0 then halfEvenDiv c0 (10 ^ k) else c0
    decide ((999999 : Int) < ((natToStr c1).length : Int) - 1 + (e + (k : Int)))

/-- The region where the default context is invisible for the parsed
value `m * 10 ^ e`: the product coefficient `|m| * 100` fits the
28-digit precision (multiplication exact, no `Overflow` possible below
`Emax`) and the exactly-quantized integer fits it too (no
`InvalidOperation`). There `decCents100` coincides with the unbounded
rule `centsTimes100`. -/
def decFits100 (m e : Int) : Bool :=
  if m = 0 then true
  else
    decide ((natToStr (m.natAbs * 100)).length ≤ 28) &&
    decide ((natToStr (centsTimes100 m e).natAbs).length ≤ 28)

/-- Unsigned decimal mantissa: digits with at most one point, at least
one digit; yields the digit value and the fraction length. -/
def parseUnsignedMantissa? (s : Str) : Option (Nat × Nat) :=
  let ip := s.takeWhile isDigitC
  let rest := s.drop ip.length
  match rest with
  | [] => if ip.isEmpty then none else some (natOfDigits ip, 0)
  | '.' :: fp =>
      if fp.all isDigitC ∧ (ip ≠ [] ∨ fp ≠ []) then
        some (natOfDigits (ip ++ fp), fp.length)
      else none
  | _ => none

/-- Signed mantissa. -/
def parseMantissa? (s : Str) : Option (Bool × Nat × Nat) :=
  match s with
  | '-' :: r => (parseUnsignedMantissa? r).map (fun p => (true, p.1, p.2))
  | '+' :: r => (parseUnsignedMantissa? r).map (fun p => (false, p.1, p.2))
  | _ => (parseUnsignedMantissa? s).map (fun p => (false, p.1, p.2))

/-- Exponent part after `e`/`E`: optional sign plus digits. -/
def parseExpPart? (s : Str) : Option Int :=
  match s with
  | '-' :: r => if pyIsdigit r then some (-(natOfDigits r : Int)) else none
  | '+' :: r => if pyIsdigit r then some (natOfDigits r : Int) else none
  | _ => if pyIsdigit s then some (natOfDigits s : Int) else none

/-- Split a numeral at its first `e`/`E`. -/
def splitAtExpChar (s : Str) : Str × Option Str :=
  let pre := s.takeWhile (fun c => !(c == 'e' || c == 'E'))
  let post := s.drop pre.length
  match post with
  | [] => (pre, none)
  | _ :: rest => (pre, some rest)

/-- `Decimal(s)` for finite numerals, as `(m, e)` with value
`m * 10 ^ e`; `none` models `InvalidOperation`. -/
def parseDecimal? (s : Str) : Option (Int × Int) :=
  let (mant, expPart) := splitAtExpChar s
  match parseMantissa? mant, expPart with
  | some (neg, m, k), none =>
      some ((if neg then -(m : Int) else (m : Int)), -(k : Int))
  | some (neg, m, k), some ep =>
      (parseExpPart? ep).map
        (fun e => ((if neg then -(m : Int) else (m : Int)), e - (k : Int)))
  | none, _ => none

/-!
## Price and tax conversion (C4, C5, C6)

`GUI/kretz_adapter.py::_price_to_width` and `_imp_from_ctipoiva`.
-/

/-- The clamp-and-pad tail of `_price_to_width`:
`if cents < 0: cents = 0; maxv = 10 ** w - 1;
if cents > maxv: cents = maxv; return str(cents).rjust(w, "0")`. -/
def clampPad (cents : Int) (w : Nat) : Str :=
  let cents := if cents < 0 then 0 else cents
  let maxv : Int := ((10 : Nat) ^ w : Nat) - 1
  let cents := if maxv < cents then maxv else cents
  rjust '0' w (natToStr cents.toNat)

/-- `_price_to_width` from the Protocol Adapter: empty for
non-positive width; strip, comma to dot; a non-empty non-pure-digit
string goes through `(Decimal(s) * 100).quantize(Decimal("1"))` under
the default decimal context (`decCents100`: half-even, construction
failure or the caught quantize `InvalidOperation` give 0) while a
pure-digit (or blank) string is taken directly by `int`; clamp to
`0 .. 10 ^ w - 1`; left-pad with zeros to `w`. On inputs where the
multiplication signals the uncaught `Overflow` (`priceOverflows`) the
source raises instead of returning; the model stays total there and its
value on such inputs is never relied upon — every theorem about this
function excludes them. -/
def priceToWidth (v : Str) (w : Nat) : Str :=
  if w = 0 then []
  else
    let s := (trimStr v).map (fun c => if c == ',' then '.' else c)
    let cents : Int :=
      if !s.isEmpty && !(pyIsdigit s) then
        match parseDecimal? s with
        | some me => decCents100 me.1 me.2
        | none => 0
      else (natOfDigits s : Int)
    clampPad cents w

/-- Whether `_price_to_width` raises the uncaught `decimal.Overflow` on
this value: a non-empty, non-pure-digit form that parses to a decimal
whose product with 100 overflows the default context (`decOverflow100`);
every other path returns normally. -/
def priceOverflows (v : Str) : Bool :=
  let s := (trimStr v).map (fun c => if c == ',' then '.' else c)
  if !s.isEmpty && !(pyIsdigit s) then
    match parseDecimal? s with
    | some me => decOverflow100 me.1 me.2
    | none => false
  else false

/-- Whether the value's decimal path stays inside the default context's
precision (`decFits100`) — the region where `_price_to_width`'s
`Decimal` arithmetic is exact. Values that do not take the decimal path,
or do not parse, fit vacuously. -/
def priceDecFits (v : Str) : Bool :=
  let s := (trimStr v).map (fun c => if c == ',' then '.' else c)
  if !s.isEmpty && !(pyIsdigit s) then
    match parseDecimal? s with
    | some me => decFits100 me.1 me.2
    | none => true
  else true

/-- The claim's price rule, from the spec's words: always parse the value
as a decimal number (non-numeric or blank gives 0), multiply by 100 for
integer cents, clamp negatives to 0 and the result to `10 ^ w - 1`,
left-pad to `w`. -/
def priceSpecRule (v : Str) (w : Nat) : Str :=
  if w = 0 then []
  else
    let s := (trimStr v).map (fun c => if c == ',' then '.' else c)
    let cents : Int :=
      match parseDecimal? s with
      | some me => centsTimes100 me.1 me.2
      | none => 0
    clampPad cents w

/-- `_imp_from_ctipoiva` from the Protocol Adapter:
`float` the comma-fixed value (failures give 0.0), `int(round(p * 100))`
(half-even), then `_pad_num(n, 6)`. The binary-float roundoff is not
modelled (the tax percentages in play are short decimals), and neither
are the paths where the source raises rather than returns: `float` maps
`"nan"`/`"inf"` to specials and out-of-range literals such as `"1e400"`
to `inf`, on which `int(round(p * 100))` raises an uncaught
`ValueError`/`OverflowError`, while this model totalizes them. The
theorems below depend on this function only through its always-6-char
shape (C4) and at the exact in-domain input `"21"` (C6). -/
def impFromCtipoiva (v : Str) : Str :=
  let s := trimStr (v.map (fun c => if c == ',' then '.' else c))
  let n : Int :=
    match parseDecimal? s with
    | some me => centsTimes100 me.1 me.2
    | none => 0
  padNumAdapter (intToStr n) 6

/-- `_tipo_from_cvencom` from the Protocol Adapter. -/
def tipoFromCvencom (v : Str) : Str :=
  let s := (trimStr v).map Char.toUpper
  if s = "U".toList ∨ s = "UNI".toList ∨ s = "UN".toList ∨
      s = "UNIDAD".toList ∨ s = "N".toList ∨ s = "NO".toList then
    "N".toList
  else "P".toList

/-!
## Model-aware PLU record builder and batch senders (C4, C6)

`GUI/kretz_adapter.py`: `MODEL_2005_PLU`, `_pad_num_w`, `_pad_txt_w`,
`_build_datos_2005_modelo`, `_valid_2005_data`, `_mk_info_line`,
`enviar_plus`, `enviar_dptos_y_articulos`.
-/

/-- `MODEL_2005_PLU`: per-field character widths of the 2005 record. -/
def model2005W : Nat → Nat
  | 1 => 6 | 2 => 3 | 3 => 3 | 4 => 26 | 5 => 26 | 6 => 5 | 7 => 1 | 8 => 7
  | 9 => 6 | 10 => 6 | 11 => 6 | 12 => 6 | 13 => 6 | 14 => 5 | 15 => 5
  | 16 => 2 | 17 => 4 | 18 => 4 | 19 => 4 | 20 => 0 | 21 => 0 | 22 => 4
  | _ => 0

/-- `MODEL_2005_TOTAL = sum(MODEL_2005_PLU.values())`. -/
def model2005Total : Nat :=
  (List.range' 1 22).foldl (fun a i => a + model2005W i) 0

/-- `_pad_num_w(n, w)`: `str(int(n)).rjust(w, "0") if w > 0 else ""`. -/
def padNumW (n : Int) (w : Nat) : Str :=
  if w = 0 then [] else rjust '0' w (intToStr n)

/-- `_pad_txt_w(s, w)`: `(s[:w]).ljust(w) if w > 0 else ""`. -/
def padTxtW (s : Str) (w : Nat) : Str :=
  if w = 0 then [] else ljust ' ' w (s.take w)

/-- `_pad_txt(value, length)` from the Protocol Adapter:
`s[:length].ljust(length, " ")`. -/
def padTxtAdapter (value : Str) (length : Nat) : Str :=
  ljust ' ' length (value.take length)

/-- `_build_datos_2005_modelo(it, fam_def, dec_prec)`: builds the 135-char
2005 record, `none` when the PLU6 or the 3-digit department cannot be
derived. Width literals are the corresponding `MODEL_2005_PLU` entries.
The source's `if precio is None` guard is inert (`_price_to_width` always
returns a string for positive width) and is omitted, as are the inert
`or "P"` / `or ""` fallbacks on the always-non-empty type and tax
fields. -/
def buildDatos2005Modelo (it : Item) (famDef : Str) (decPrec : Int) :
    Option Str :=
  match coercePlu6 it, coerceDep3 it with
  | some plu6, some dep =>
    let plu4 := pySliceLastN plu6 4
    let famNum : Int := (pyIntParse? (trimStr famDef)).getD 0
    let fam := padNumW famNum 3
    let nom := padTxtW
      (if it.cdetalle.isEmpty then "PLU ".toList ++ plu6 else it.cdetalle) 26
    let desc := padTxtW [] 26
    let tipo := ljust ' ' 1 ((tipoFromCvencom it.cvencom).take 1)
    let valorFijo := padNumW 0 7
    let precio := priceToWidth it.npvp1 6
    let precioAlt := padNumW 0 6
    let precioAnt := padNumW 0 6
    let imp1 := rjust '0' 6 (pySliceLastN (impFromCtipoiva it.ctipoiva) 6)
    let imp2 := padNumW 0 6
    let taraPre := padNumW 0 5
    let taraPub := padNumW 0 5
    let codEtq := padNumW 1 2
    let codRec := padNumW 0 4
    let codNut := padNumW 0 4
    let campo19 := padNumW 0 4
    let dp := max 0 (min 2 decPrec)
    let campo22 := padNumW dp 4
    let cod5raw := '0' :: plu4
    let cod5 :=
      if cod5raw.length ≠ 5 then rjust '0' 5 (pySliceLastN cod5raw 5)
      else cod5raw
    some (plu6 ++ dep ++ fam ++ nom ++ desc ++ cod5 ++ tipo ++ valorFijo ++
      precio ++ precioAlt ++ precioAnt ++ imp1 ++ imp2 ++ taraPre ++
      taraPub ++ codEtq ++ codRec ++ codNut ++ campo19 ++ campo22)
  | _, _ => none

/-- `_valid_2005_data(datos)`: length equals `MODEL_2005_TOTAL`. -/
def valid2005 (datos : Str) : Bool :=
  datos.length == model2005Total

/-- `_mk_info_line(eq, cmd, datos)`:
`TIPO_EQUIPO + _pad_num(eq.id_equipo, 2) + cmd + datos`. -/
def mkInfoLine (idEquipo : Nat) (cmd datos : Str) : Str :=
  'C' :: (padNumAdapter (natToStr idEquipo) 2 ++ cmd ++ datos)

/-- The 2005 lines built by `enviar_plus`: items whose record cannot be
built or has the wrong total length are skipped (and progress-reported,
not modelled) rather than added to the batch. -/
def enviarPlusLines (eqId : Nat) (items : List Item) (famDef : Str) :
    List Str :=
  items.filterMap (fun it =>
    match buildDatos2005Modelo it famDef 1 with
    | none => none
    | some d =>
        if valid2005 d then some (mkInfoLine eqId "2005".toList d) else none)

/-- Department entry passed to `enviar_dptos_y_articulos` (dict shape). -/
structure DeptoDef where
  codigo : Str
  nombre : Str
deriving DecidableEq

/-- The combined batch built by `enviar_dptos_y_articulos`: every 2003
department line first, then every surviving 2005 PLU line. -/
def enviarDptosYArticulosLines (eqId : Nat) (deptos : List DeptoDef)
    (arts : List Item) (famDef : Str) : List Str :=
  (deptos.map (fun d =>
    let cod := padNumAdapter d.codigo 3
    let nombre := padTxtAdapter
      (if d.nombre.isEmpty then "DEP ".toList ++ cod else d.nombre) 16
    mkInfoLine eqId "2003".toList (cod ++ nombre)))
  ++ arts.filterMap (fun it =>
    match buildDatos2005Modelo it famDef 1 with
    | none => none
    | some d =>
        if valid2005 d then some (mkInfoLine eqId "2005".toList d) else none)

/-- True unless the line is a 2005 line whose data part is not exactly
`MODEL_2005_TOTAL` characters. -/
def ok2005Line (line : Str) : Bool :=
  !((line.drop 3).take 4 == "2005".toList) ||
    ((line.drop 7).length == model2005Total)

/-!
## Combined-send workflow (C6)

`GUI/GUI_MAIN.py::_enviar_dptos_y_articulos_balanzas` together with the
adapter's `configurar_codbarra_1070`, `configurar_moneda_2026` and
`seleccionar_moneda_1010` data builders.
-/

/-- Python `f-string 02d` formatting of a natural number. -/
def pad02 (n : Nat) : Str := rjust '0' 2 (natToStr n)

/-- Data of the 1070 barcode-configuration command. -/
def codbarra1070Data (inicioPesable : Nat) (incluirPeso : Bool)
    (inicioNoPesable : Nat) (incluirUnid : Bool) (formato : Nat) : Str :=
  pad02 inicioPesable ++ (if incluirPeso then "1".toList else "0".toList) ++
  pad02 inicioNoPesable ++ (if incluirUnid then "1".toList else "0".toList) ++
  natToStr formato

/-- Data of the 2026 currency-decimals command:
`{moneda:02d} + str(dec_precio)[:1] + str(dec_peso)[:1]`. -/
def moneda2026Data (moneda decPrecio decPeso : Nat) : Str :=
  pad02 moneda ++ (natToStr decPrecio).take 1 ++ (natToStr decPeso).take 1

/-- Data of the 1010 currency-selection command: `{moneda:02d}`. -/
def moneda1010Data (moneda : Nat) : Str := pad02 moneda

/-- Equipment row as seen by the Application Shell workflow. -/
structure EquipoRow where
  nombre : Str
  ip : Str
  puerto : Nat
  deptos : List Str
deriving DecidableEq

/-- The sequence of command batches issued per equipment by the
combined-send workflow: a 1070 frame (prefixes 20/20, no weight, no
units, format 1), a 2026 frame (currency 02, price-decimals 1,
weight-decimals 3), a 1010 frame (select currency 02), then the single
combined department+PLU batch with family default 0 and device id 01.
Equipment with no departments, or whose article query returns no rows,
is skipped (empty result). -/
def workflowCombinedSend (e : EquipoRow) (rows : List Item) :
    List (List Str) :=
  let deptos := e.deptos.map (fun d => rjust '0' 3 d)
  if deptos.isEmpty then []
  else if rows.isEmpty then []
  else
    let dptDefs := deptos.map (fun d => DeptoDef.mk d ("DEP ".toList ++ d))
    [ [mkInfoLine 1 "1070".toList (codbarra1070Data 20 false 20 false 1)],
      [mkInfoLine 1 "2026".toList (moneda2026Data 2 1 3)],
      [mkInfoLine 1 "1010".toList (moneda1010Data 2)],
      enviarDptosYArticulosLines 1 dptDefs rows "0".toList ]

/-!
## Relation replacement and repository facades (C7, C8)

`db/dao_bala_dptos.py::codigos_validos`, `reemplazar_relaciones`;
`db/dao_repo_sybase.py::RepoSybase.update_equipo`, `delete_depto`;
`GUI/abm_departamentos.py::Repo.delete_depto`.
The database is modelled as explicit state: the department master
(`GRP_VENT` codes) and the relation rows (`BALA_DPTOS`).
-/

/-- Relational state touched by the relation DAO. -/
structure RelState where
  master : List Str
  rels : List (Int × Str)
deriving DecidableEq

/-- `codigos_validos(codigos)`: the submitted codes that exist in the
department master (no query for an empty submission). The source
returns a set built from the query result; it is modelled as the list
of matching master rows, and theorems about it are membership-level. -/
def codigosValidos (codigos : List Str) (master : List Str) : List Str :=
  if codigos.isEmpty then []
  else master.filter (fun m => codigos.contains m)

/-- `reemplazar_relaciones(equipo_id, codigos)`: delete every relation
row of the equipment, insert the valid subset, return the invalid
submitted codes. -/
def reemplazarRelaciones (equipoId : Int) (codigos : List Str)
    (st : RelState) : RelState × List Str :=
  let afterDelete := st.rels.filter (fun r => !(r.1 == equipoId))
  let validos := codigosValidos codigos st.master
  let invalidos := codigos.filter (fun c => !(validos.contains c))
  ({ st with rels := afterDelete ++ validos.map (fun c => (equipoId, c)) },
   invalidos)

/-- The relation-replacement step of `RepoSybase.update_equipo` /
`add_equipo`: raises (second component `some` error) when the invalid
list is non-empty, but the replacement has already been committed either
way (first component). -/
def updateEquipoRel (equipoId : Int) (codigos : List Str) (st : RelState) :
    RelState × Option Str :=
  let r := reemplazarRelaciones equipoId codigos st
  (r.1, if r.2.isEmpty then none
        else some "Departamentos inexistentes (CGRPCONTA)".toList)

/-- Equipment row of the relational repository facade: its refreshed
in-memory `deptos` code list. -/
structure SybEquipo where
  deptos : List Str
deriving DecidableEq

/-- In-memory state of the relational Repository Facade relevant to
`delete_depto`: department rows (code, name) and equipment rows. -/
structure SybRepoState where
  departamentos : List (Str × Str)
  equipos : List SybEquipo
deriving DecidableEq

/-- `RepoSybase.delete_depto`: refuse when any equipment's `deptos`
contains the code; otherwise delete the department row. -/
def deleteDeptoSybase (codigo : Str) (st : SybRepoState) :
    Except Str SybRepoState :=
  if st.equipos.any (fun e => e.deptos.contains codigo) then
    .error "No se puede borrar: hay equipos asociados a este depto.".toList
  else
    .ok { st with
          departamentos := st.departamentos.filter (fun d => !(d.1 == codigo)) }

/-- Equipment record of the JSON fallback store: it may carry a `deptos`
list and/or the legacy singular `depto_codigo` key (absent keys are
`none` / `[]`, matching `dict.get`). -/
structure JsonEquipo where
  deptos : List Str
  deptoCodigo : Option Str
deriving DecidableEq

/-- State of the JSON-file-backed fallback repository. -/
structure JsonRepoState where
  departamentos : List (Str × Str)
  equipos : List JsonEquipo
deriving DecidableEq

/-- `Repo.delete_depto` of the Department Management Screen (JSON
fallback): the guard tests `e.get("depto_codigo") == codigo` — the
legacy singular key, not the `deptos` list — then removes the matching
department rows, raising if none matched. -/
def deleteDeptoJson (codigo : Str) (st : JsonRepoState) :
    Except Str JsonRepoState :=
  if st.equipos.any (fun e => e.deptoCodigo == some codigo) then
    .error "No se puede borrar: hay equipos asociados a este depto.".toList
  else
    let remaining := st.departamentos.filter (fun d => !(d.1 == codigo))
    if remaining.length = st.departamentos.length then
      .error "Departamento no encontrado".toList
    else .ok { st with departamentos := remaining }

/-!
## INFO.JDG modification-time forcing (C9)

`GUI/jdg_driver.py::send_info_lines`: after the in-place write,
`prev_mtime_sec = int(previous st_mtime)`; `ts = time.time()`;
`if int(ts) <= prev_mtime_sec: ts = prev_mtime_sec + 1.1`; `utime(ts)`.
Timestamps are modelled in hundredths of a second.
-/

/-- The modification timestamp `send_info_lines` stamps on INFO.JDG,
given the file's previous mtime (`none` when the file did not exist) and
the wall-clock time of the write, all in hundredths of a second. -/
def sendInfoMtime (prevMtime : Option Nat) (now : Nat) : Nat :=
  match prevMtime with
  | none => now
  | some p => if now / 100 ≤ p / 100 then (p / 100) * 100 + 110 else now

/-!
## Direct-TCP batch sender (C10)

`GUI/kretz_driver.py::KretzTCP.send_many`. Device behaviour is an
oracle: `o i j` is the raw response to the `j`-th transmission attempt
of the `i`-th frame (`[]` when nothing was received before timeout).
-/

/-- The acceptance test of `send_many`:
`resp and resp[0] == 0x07 and resp[-1] == 0x04`. -/
def validRespB (r : List Nat) : Bool :=
  !r.isEmpty && (r.head?.getD 0 == 7) && (r.getLast?.getD 0 == 4)

/-- One frame's retry loop: attempt `k`, `left` further attempts allowed;
a valid response is recorded immediately, and when the budget runs out
the last received response is recorded as-is (`resp or b""` is the
identity on byte strings here since an absent response is `[]`). -/
def sendOneFrom (o : Nat → List Nat) : Nat → Nat → List Nat
  | k, 0 => o k
  | k, left + 1 =>
      let r := o k
      if validRespB r then r else sendOneFrom o (k + 1) left

/-- `send_many` over the frame list, indexed from `i`. -/
def sendManyFrom (o : Nat → Nat → List Nat) (maxRetries : Nat) :
    Nat → List (List Nat) → List (List Nat)
  | _, [] => []
  | i, _f :: rest =>
      sendOneFrom (o i) 0 maxRetries :: sendManyFrom o maxRetries (i + 1) rest

/-- `KretzTCP.send_many(frames, inter_delay, max_retries)`: one response
entry per frame, in order (delays have no effect on the result). -/
def sendMany (frames : List (List Nat)) (o : Nat → Nat → List Nat)
    (maxRetries : Nat) : List (List Nat) :=
  sendManyFrom o maxRetries 0 frames

/-!
## Concrete scenario data used by individual claims
-/

/-- C3 counterexample row: no usable CREF, barcode whose digit-only form
holds the PLU but which does not start with 6 digits. -/
def itemC3 : Item :=
  { cref := "ABC".toList, ccodebar := "A2010170000000".toList,
    cgrpconta := "005".toList }

/-- C4 witness row: oversized 30-character name. -/
def item30 : Item :=
  { cref := "1017".toList, cgrpconta := "005".toList,
    cdetalle := "ABCDEFGHIJKLMNOPQRSTUVWXYZ1234".toList,
    npvp1 := "19.5".toList, ctipoiva := "21".toList }

/-- C6 scenario equipment: departments assigned `["005"]`. -/
def equipoC6 : EquipoRow :=
  { nombre := "EQ1".toList, ip := "10.0.0.5".toList, puerto := 1001,
    deptos := ["005".toList] }

/-- C6 scenario article row. -/
def rowC6 : Item :=
  { cref := "1017".toList, cgrpconta := "005".toList,
    npvp1 := "19.5".toList, ctipoiva := "21".toList }

/-- C8 failing state: one department `001` and one equipment whose
`deptos` list contains `001` (no legacy `depto_codigo` key). -/
def jsonStateC8 : JsonRepoState :=
  { departamentos := [("001".toList, "Panaderia".toList)],
    equipos := [{ deptos := ["001".toList], deptoCodigo := none }] }

/-- The C8 state as seen by the relational facade. -/
def sybStateC8 : SybRepoState :=
  { departamentos := [("001".toList, "Panaderia".toList)],
    equipos := [{ deptos := ["001".toList] }] }
/-- The 2005 data record the workflow builds for the C6 scenario row. -/
def datosC6 : Str := (buildDatos2005Modelo rowC6 "0".toList 1).getD []

/-- C7 witness state: department master holding `005` only, relation rows
for two pieces of equipment. -/
def stC7 : RelState :=
  { master := ["005".toList],
    rels := [(1, "001".toList), (2, "007".toList)] }

/-- The C8 legacy-shaped state: an equipment holding the code in the
legacy `depto_codigo` field. -/
def jsonStateC8legacy : JsonRepoState :=
  { departamentos := [("001".toList, "Panaderia".toList)],
    equipos := [{ deptos := [], deptoCodigo := some "001".toList }] }

/-- C10 witness oracle: frame 0 answers validly on its second attempt,
frame 1 never answers. -/
def oC10 : Nat → Nat → List Nat :=
  fun i j => if i == 0 && j == 1 then [7, 1, 4] else []

theorem and255_eq_mod (n : Nat) : n &&& 255 = n % 256 := by
  have h : (255 : Nat) = 2 ^ 8 - 1 := by norm_num
  rw [h, Nat.and_pow_two_sub_one_eq_mod]

theorem and15_eq_mod (n : Nat) : n &&& 15 = n % 16 := by
  have h : (15 : Nat) = 2 ^ 4 - 1 := by norm_num
  rw [h, Nat.and_pow_two_sub_one_eq_mod]

theorem shiftRight4_eq_div (n : Nat) : n >>> 4 = n / 16 := by
  rw [Nat.shiftRight_eq_div_pow]

/-- Claim C1: for every command body, the checksum of `STX ++ body` is the
pair of bytes `high nibble of (sum mod 256) + 0x30` and
`low nibble + 0x30`, in that order; each such byte lies in `0x30..0x3F`;
the computation is a pure function of its input (hence deterministic);
and the Scale Communication Service and the Direct-TCP client compute the
same bytes. -/
theorem checksum_c1 (body : List Nat) :
    checksumBytesEnvios (0x02 :: body) =
      [((0x02 :: body).foldl (· + ·) 0 % 256) / 16 + 0x30,
       ((0x02 :: body).foldl (· + ·) 0 % 256) % 16 + 0x30] ∧
    checksumBytesDriver (0x02 :: body) = checksumBytesEnvios (0x02 :: body) ∧
    (∀ b ∈ checksumBytesEnvios (0x02 :: body), 0x30 ≤ b ∧ b ≤ 0x3F) := by
  have e1 : checksumBytesEnvios (0x02 :: body) =
      [((0x02 :: body).foldl (· + ·) 0 % 256) / 16 + 0x30,
       ((0x02 :: body).foldl (· + ·) 0 % 256) % 16 + 0x30] := by
    unfold checksumBytesEnvios
    simp only [and255_eq_mod, and15_eq_mod, shiftRight4_eq_div]
    have hlt : ((0x02 :: body).foldl (· + ·) 0 % 256) / 16 < 16 := by
      have := Nat.mod_lt ((0x02 :: body).foldl (· + ·) 0) (show 0 < 256 by norm_num)
      omega
    rw [Nat.mod_eq_of_lt hlt]
  refine ⟨e1, rfl, ?_⟩
  intro b hb
  rw [e1] at hb
  have h16 : ((0x02 :: body).foldl (· + ·) 0 % 256) / 16 < 16 := by
    have := Nat.mod_lt ((0x02 :: body).foldl (· + ·) 0) (show 0 < 256 by norm_num)
    omega
  have h16' : ((0x02 :: body).foldl (· + ·) 0 % 256) % 16 < 16 :=
    Nat.mod_lt _ (by norm_num)
  simp only [List.mem_cons, List.mem_singleton, List.not_mem_nil, or_false] at hb
  rcases hb with h | h <;> omega

/-- Witness for C1: concrete body `"C012003"`-style payload, checksum bytes
evaluated and shown to satisfy the range bound. -/
theorem checksum_c1_witness :
    (67 ∈ checksumBytesEnvios (0x02 :: [67, 48, 49]) → False) ∧
    (0x30 ≤ (checksumBytesEnvios (0x02 :: [67, 48, 49])).headI ∧
      (checksumBytesEnvios (0x02 :: [67, 48, 49])).headI ≤ 0x3F) := by
  constructor
  · intro h
    have := (checksum_c1 [67, 48, 49]).2.2 67 h
    omega
  · exact (checksum_c1 [67, 48, 49]).2.2
      ((checksumBytesEnvios (0x02 :: [67, 48, 49])).headI) (by decide)

/-- Counterexample to C2: the Scale Communication Service's `pad_num`
pads `"1005"` at width 3 to `"100"` — the leftmost, not the rightmost,
three digits — while the claim requires `"005"`. -/
theorem pad_num_c2_counterexample :
    padNumSvc "1005".toList 3 = "100".toList ∧
    padNumSvc "1005".toList 3 ≠ "005".toList ∧
    padSpecRule "1005".toList 3 = "005".toList := by
  refine ⟨by decide, by decide, by decide⟩

/-- Claim C2, amended: the adapter's `_pad_num` keeps the rightmost
`width` digits (left-padded with `'0'`) when the trimmed value consists
solely of digits, and yields `width` zeros otherwise (it does not strip
embedded non-digits); the service's `pad_num` strips non-digits and
left-pads to `width` but then keeps the *leftmost* `width` characters,
so it agrees with the rightmost-digits rule only when at most `width`
digits remain. In particular `"5"` and `"005"` pad to `"005"` at width 3
under both, `"1005"` pads to `"005"` under the adapter but to `"100"`
under the service. -/
theorem pad_num_c2_amended :
    (∀ v w, 0 < w → pyIsdigit (trimStr v) = true → trimStr v = onlyDigits v →
      padNumAdapter v w = padSpecRule v w) ∧
    (∀ v w, (onlyDigits v).length ≤ w → padNumSvc v w = padSpecRule v w) ∧
    (∀ v w, 0 < w → pyIsdigit (trimStr v) = false →
      padNumAdapter v w = List.replicate w '0') ∧
    padNumAdapter "5".toList 3 = "005".toList ∧
    padNumAdapter "005".toList 3 = "005".toList ∧
    padNumAdapter "1005".toList 3 = "005".toList ∧
    padNumSvc "5".toList 3 = "005".toList ∧
    padNumSvc "005".toList 3 = "005".toList ∧
    padNumSvc "1005".toList 3 = "100".toList := by
  refine ⟨?_, ?_, ?_, by decide, by decide, by decide, by decide, by decide, by decide⟩
  · intro v w hw hdig heq
    have hw0 : w ≠ 0 := by omega
    simp only [padNumAdapter, padSpecRule, pySliceLastN, hdig, if_true, hw0,
      if_false]
    rw [heq]
  · intro v w hle
    unfold padNumSvc padSpecRule rjust
    by_cases h : w ≤ (onlyDigits v).length
    · have hlen : (onlyDigits v).length = w := by omega
      simp [h, hlen, List.take_of_length_le (le_of_eq hlen)]
    · have hdrop : (onlyDigits v).length - w = 0 := by omega
      simp only [h, if_false, hdrop, List.drop_zero]
      rw [List.take_of_length_le]
      simp only [List.length_append, List.length_replicate]
      omega
  · intro v w hw hdig
    have hw0 : w ≠ 0 := by omega
    simp only [padNumAdapter, pySliceLastN, hdig, Bool.false_eq_true,
      if_false, hw0, List.length_cons, List.length_nil]
    have hdrop : (['0'] : Str).drop (0 + 1 - w) = ['0'] := by
      have h0 : 0 + 1 - w = 0 := by omega
      rw [h0, List.drop_zero]
    rw [hdrop]
    unfold rjust
    by_cases h1 : w = 1
    · subst h1
      decide
    · have h2 : ¬ (w ≤ ([ '0' ] : Str).length) := by
        simp only [List.length_cons, List.length_nil]
        omega
      rw [if_neg h2]
      have h3 : w - ([ '0' ] : Str).length = w - 1 := by simp
      rw [h3]
      have hw1 : w = (w - 1) + 1 := by omega
      conv_rhs => rw [hw1]
      rw [List.replicate_succ']

/-- Witness for C2's amended theorem: the agreement clauses discharged at
concrete inputs. -/
theorem pad_num_c2_amended_witness :
    ((0 < 3 ∧ pyIsdigit (trimStr "1005".toList) = true ∧
        trimStr "1005".toList = onlyDigits "1005".toList) ∧
      padNumAdapter "1005".toList 3 = padSpecRule "1005".toList 3) ∧
    ((onlyDigits "05".toList).length ≤ 3 ∧
      padNumSvc "05".toList 3 = padSpecRule "05".toList 3) ∧
    ((0 < 3 ∧ pyIsdigit (trimStr "1a05".toList) = false) ∧
      padNumAdapter "1a05".toList 3 = List.replicate 3 '0') := by
  refine ⟨⟨⟨by decide, by decide, by decide⟩, ?_⟩,
          ⟨by decide, ?_⟩, ⟨⟨by decide, by decide⟩, ?_⟩⟩
  · exact pad_num_c2_amended.1 "1005".toList 3 (by decide) (by decide) (by decide)
  · exact pad_num_c2_amended.2.1 "05".toList 3 (by decide)
  · exact pad_num_c2_amended.2.2.1 "1a05".toList 3 (by decide) (by decide)

/-!
## Supporting lemmas on the string and number helpers
-/

theorem rjust_length (c : Char) (w : Nat) (s : Str) :
    (rjust c w s).length = max w s.length := by
  unfold rjust
  split <;> simp_all <;> omega

theorem ljust_length (c : Char) (w : Nat) (s : Str) :
    (ljust c w s).length = max w s.length := by
  unfold ljust
  split <;> simp_all <;> omega

theorem pySliceLastN_length (s : Str) (n : Nat) (hn : n ≠ 0) :
    (pySliceLastN s n).length = min n s.length := by
  unfold pySliceLastN
  simp [hn]
  omega

theorem rjust_slice_length (w : Nat) (hw : w ≠ 0) (c : Char) (s : Str) :
    (rjust c w (pySliceLastN s w)).length = w := by
  rw [rjust_length, pySliceLastN_length s w hw]
  omega

theorem padNumAdapter_length (v : Str) (w : Nat) (hw : w ≠ 0) :
    (padNumAdapter v w).length = w := by
  unfold padNumAdapter
  exact rjust_slice_length w hw '0' _

theorem padTxtW_length (s : Str) (w : Nat) (hw : w ≠ 0) :
    (padTxtW s w).length = w := by
  unfold padTxtW
  simp only [hw, if_false]
  rw [ljust_length]
  have := List.length_take w s
  omega

theorem padTxtAdapter_length (s : Str) (w : Nat) :
    (padTxtAdapter s w).length = max w (min w s.length) := by
  unfold padTxtAdapter
  rw [ljust_length]
  simp

theorem natToStrFuel_congr :
    ∀ n f g, n < f → n < g → natToStrFuel f n = natToStrFuel g n := by
  intro n
  induction n using Nat.strong_induction_on with
  | _ n ih =>
      intro f g hf hg
      match f, g with
      | f' + 1, g' + 1 =>
        by_cases h : n < 10
        · simp [natToStrFuel, h]
        · simp only [natToStrFuel, h, if_false]
          have hlt : n / 10 < n := Nat.div_lt_self (by omega) (by omega)
          rw [ih (n / 10) hlt f' g' (by omega) (by omega)]

theorem natToStr_lt10 (n : Nat) (h : n < 10) :
    natToStr n = [Nat.digitChar n] := by
  simp [natToStr, natToStrFuel, h]

theorem natToStr_ge10 (n : Nat) (h : ¬ n < 10) :
    natToStr n = natToStr (n / 10) ++ [Nat.digitChar (n % 10)] := by
  show natToStrFuel (n + 1) n = _
  simp only [natToStrFuel, h, if_false]
  rw [natToStrFuel_congr (n / 10) n (n / 10 + 1)
    (Nat.div_lt_self (by omega) (by omega)) (by omega)]
  rfl

theorem natToStr_ne_nil (n : Nat) : natToStr n ≠ [] := by
  by_cases h : n < 10
  · rw [natToStr_lt10 n h]
    simp
  · rw [natToStr_ge10 n h]
    simp

theorem natToStr_length_le (k : Nat) :
    ∀ n, n < 10 ^ k → (natToStr n).length ≤ max 1 k := by
  induction k with
  | zero =>
      intro n hn
      have : n = 0 := by omega
      subst this
      rw [natToStr_lt10 0 (by omega)]
      simp
  | succ k ih =>
      intro n hn
      by_cases h : n < 10
      · rw [natToStr_lt10 n h]
        simp only [List.length_cons, List.length_nil]
        omega
      · rw [natToStr_ge10 n h]
        have hk : 1 ≤ k := by
          by_contra hc
          have : k = 0 := by omega
          subst this
          simp at hn
          omega
        have hdiv : n / 10 < 10 ^ k := by
          rw [Nat.div_lt_iff_lt_mul (by omega)]
          calc n < 10 ^ (k + 1) := hn
          _ = 10 ^ k * 10 := by ring
        have := ih (n / 10) hdiv
        simp only [List.length_append, List.length_cons, List.length_nil]
        omega

theorem digitChar_isDigit (m : Nat) (h : m < 10) :
    isDigitC (Nat.digitChar m) = true := by
  interval_cases m <;> decide

theorem natToStr_all_digits (n : Nat) :
    (natToStr n).all isDigitC = true := by
  induction n using Nat.strong_induction_on with
  | _ n ih =>
      by_cases h : n < 10
      · rw [natToStr_lt10 n h]
        simp [digitChar_isDigit n h]
      · rw [natToStr_ge10 n h]
        rw [List.all_append]
        refine Bool.and_eq_true_iff.mpr ⟨?_, ?_⟩
        · exact ih (n / 10) (Nat.div_lt_self (by omega) (by omega))
        · simp [digitChar_isDigit (n % 10) (Nat.mod_lt n (by omega))]

theorem isDigitC_sub_le (c : Char) (h : isDigitC c = true) :
    c.toNat - 48 ≤ 9 := by
  simp [isDigitC] at h
  omega

theorem natOfDigits_foldl_lt (s : Str) :
    ∀ a : Nat, s.all isDigitC = true →
      s.foldl (fun a c => a * 10 + (c.toNat - 48)) a < (a + 1) * 10 ^ s.length := by
  induction s with
  | nil =>
      intro a _
      simp
  | cons c t ih =>
      intro a hall
      simp only [List.all_cons, Bool.and_eq_true] at hall
      have hd : c.toNat - 48 ≤ 9 := isDigitC_sub_le c hall.1
      have := ih (a * 10 + (c.toNat - 48)) hall.2
      simp only [List.foldl_cons, List.length_cons]
      calc List.foldl (fun a c => a * 10 + (c.toNat - 48))
            (a * 10 + (c.toNat - 48)) t
          < (a * 10 + (c.toNat - 48) + 1) * 10 ^ t.length := this
        _ ≤ ((a + 1) * 10) * 10 ^ t.length := by
            have : a * 10 + (c.toNat - 48) + 1 ≤ (a + 1) * 10 := by omega
            exact Nat.mul_le_mul_right _ this
        _ = (a + 1) * 10 ^ (t.length + 1) := by ring

theorem natOfDigits_lt (s : Str) (h : s.all isDigitC = true) :
    natOfDigits s < 10 ^ s.length := by
  have := natOfDigits_foldl_lt s 0 h
  simpa [natOfDigits] using this

theorem isDigitC_not_space (c : Char) (h : isDigitC c = true) :
    isSpaceC c = false := by
  simp [isDigitC] at h
  simp [isSpaceC]
  omega

theorem trimStr_of_all_not_space (s : Str)
    (h : ∀ c ∈ s, isSpaceC c = false) : trimStr s = s := by
  unfold trimStr
  have h1 : s.dropWhile isSpaceC = s := by
    cases s with
    | nil => rfl
    | cons c t =>
        have := h c (by simp)
        simp [List.dropWhile, this]
  rw [h1]
  have h2 : s.reverse.dropWhile isSpaceC = s.reverse := by
    cases hr : s.reverse with
    | nil => rfl
    | cons c t =>
        have hc : c ∈ s := by
          have hmem : c ∈ s.reverse := by
            rw [hr]
            simp
          simpa using hmem
        have := h c hc
        simp [List.dropWhile, this]
  rw [h2, List.reverse_reverse]

theorem trimStr_of_all_digits (s : Str) (h : s.all isDigitC = true) :
    trimStr s = s := by
  refine trimStr_of_all_not_space s (fun c hc => ?_)
  rw [List.all_eq_true] at h
  exact isDigitC_not_space c (h c hc)

/-!
## C3 — PLU derivation
-/

/-- Counterexample to C3: on a row with CREF `"ABC"` and barcode
`"A2010170000000"`, the claim's rule (and the DAO) derives PLU4 `"1017"`
and PLU6 `"001017"`, but the adapter's `_coerce_plu6` — which requires
the raw barcode to begin with 6 digits — yields no PLU at all, so the
rule is not implemented by both. -/
theorem plu_c3_counterexample :
    plu4SpecRule "ABC".toList "A2010170000000".toList = "1017".toList ∧
    daoPlu6 (plu4FromCrefBarcode "ABC".toList "A2010170000000".toList) =
      "001017".toList ∧
    coercePlu6 itemC3 = none := by
  refine ⟨by decide, by decide, by decide⟩

/-- Claim C3, amended: the digit-only derivation rule (4-digit digit-form
of CREF, else characters 2..6 of the digit-only barcode when it has at
least 6 digits, else empty; PLU6 is PLU4 left-padded to 6, empty when
PLU4 is empty) is implemented exactly by the articles DAO, whose PLU4 is
always empty or 4 characters long with PLU6 then 6 characters long.
The Protocol Adapter's `_coerce_plu6` instead uses the trimmed raw CREF
only when it is exactly 4 characters, all digits, and otherwise takes
characters 2..6 of the trimmed raw barcode provided its first 6
characters are digits; an item whose derivation yields no PLU is
skipped by the batch senders rather than sent. -/
theorem plu_c3_amended :
    (∀ cref codebar,
      plu4FromCrefBarcode cref codebar = plu4SpecRule cref codebar) ∧
    (∀ cref codebar,
      plu4FromCrefBarcode cref codebar = [] ∨
        ((plu4FromCrefBarcode cref codebar).length = 4 ∧
          (daoPlu6 (plu4FromCrefBarcode cref codebar)).length = 6)) ∧
    (∀ it : Item, pyIsdigit (trimStr it.cref) = true →
      (trimStr it.cref).length = 4 →
      coercePlu6 it = some (rjust '0' 6 (trimStr it.cref))) ∧
    (∀ it : Item,
      ¬((trimStr it.cref).length = 4 ∧ pyIsdigit (trimStr it.cref) = true) →
      6 ≤ (trimStr it.ccodebar).length →
      ((trimStr it.ccodebar).take 6).all isDigitC = true →
      coercePlu6 it =
        some (rjust '0' 6 (((trimStr it.ccodebar).drop 2).take 4))) ∧
    (∀ it : Item, coercePlu6 it = none →
      ∀ eqId famDef, enviarPlusLines eqId [it] famDef = []) := by
  refine ⟨fun _ _ => rfl, ?_, ?_, ?_, ?_⟩
  · intro cref codebar
    by_cases h1 : (onlyDigits cref).length = 4
    · right
      have hp : plu4FromCrefBarcode cref codebar = onlyDigits cref := by
        unfold plu4FromCrefBarcode
        rw [if_pos h1]
      have hne : (onlyDigits cref).isEmpty = false := by
        cases hd : onlyDigits cref
        · rw [hd] at h1
          simp at h1
        · simp
      refine ⟨by rw [hp]; exact h1, ?_⟩
      unfold daoPlu6
      rw [hp, hne]
      simp only [Bool.false_eq_true, if_false]
      rw [rjust_length]
      omega
    · by_cases h2 : 6 ≤ (onlyDigits codebar).length
      · right
        have hp : plu4FromCrefBarcode cref codebar =
            ((onlyDigits codebar).drop 2).take 4 := by
          unfold plu4FromCrefBarcode
          rw [if_neg h1, if_pos h2]
        have htk : (((onlyDigits codebar).drop 2).take 4).length = 4 := by
          rw [List.length_take, List.length_drop]
          omega
        have hne : (((onlyDigits codebar).drop 2).take 4).isEmpty = false := by
          cases hd : ((onlyDigits codebar).drop 2).take 4
          · rw [hd] at htk
            simp at htk
          · simp
        refine ⟨by rw [hp]; exact htk, ?_⟩
        unfold daoPlu6
        rw [hp, hne]
        simp only [Bool.false_eq_true, if_false]
        rw [rjust_length, htk]
        omega
      · left
        unfold plu4FromCrefBarcode
        rw [if_neg h1, if_neg h2]
  · intro it hdig hlen
    simp only [coercePlu6]
    rw [if_pos (⟨hlen, hdig⟩ :
      (trimStr it.cref).length = 4 ∧ pyIsdigit (trimStr it.cref) = true)]
    rfl
  · intro it hnot h6 hdig6
    simp only [coercePlu6]
    rw [if_neg hnot, if_pos (⟨h6, hdig6⟩ :
      6 ≤ (trimStr it.ccodebar).length ∧
        ((trimStr it.ccodebar).take 6).all isDigitC = true)]
    rfl
  · intro it hnone eqId famDef
    have hb : buildDatos2005Modelo it famDef 1 = none := by
      unfold buildDatos2005Modelo
      rw [hnone]
    simp [enviarPlusLines, hb]

/-- Witness for C3's amended theorem: the adapter clauses instantiated on
concrete rows with a 4-digit CREF, with a digit-led barcode, and with
neither (skipped). -/
theorem plu_c3_amended_witness :
    ((pyIsdigit (trimStr ("1017".toList : Str)) = true ∧
        (trimStr ("1017".toList : Str)).length = 4) ∧
      coercePlu6 { cref := "1017".toList } =
        some (rjust '0' 6 (trimStr ("1017".toList : Str)))) ∧
    ((¬((trimStr ("ABC".toList : Str)).length = 4 ∧
          pyIsdigit (trimStr ("ABC".toList : Str)) = true) ∧
        6 ≤ (trimStr ("2010170000000".toList : Str)).length ∧
        ((trimStr ("2010170000000".toList : Str)).take 6).all isDigitC = true) ∧
      coercePlu6 { cref := "ABC".toList, ccodebar := "2010170000000".toList } =
        some (rjust '0' 6
          (((trimStr ("2010170000000".toList : Str)).drop 2).take 4))) ∧
    (coercePlu6 { cref := "ABC".toList } = none ∧
      enviarPlusLines 1 [{ cref := "ABC".toList }] "0".toList = []) := by
  refine ⟨⟨⟨by decide, by decide⟩, ?_⟩, ⟨⟨by decide, by decide, by decide⟩, ?_⟩,
    ⟨by decide, ?_⟩⟩
  · exact plu_c3_amended.2.2.1 { cref := "1017".toList } (by decide) (by decide)
  · exact plu_c3_amended.2.2.2.1
      { cref := "ABC".toList, ccodebar := "2010170000000".toList }
      (by decide) (by decide) (by decide)
  · exact plu_c3_amended.2.2.2.2 { cref := "ABC".toList } (by decide) 1 "0".toList

/-!
## C4 — 135-character invariant of the 2005 record
-/

theorem replicate_zero_digits (n : Nat) :
    (List.replicate n '0').all isDigitC = true := by
  rw [List.all_eq_true]
  intro c hc
  rw [List.eq_of_mem_replicate hc]
  decide

theorem rjust_natToStr_length (w : Nat) (hw : w ≠ 0) (m : Nat)
    (hm : m < 10 ^ w) : (rjust '0' w (natToStr m)).length = w := by
  rw [rjust_length]
  have := natToStr_length_le w m hm
  omega

theorem rjust_natToStr_digits (w : Nat) (m : Nat) :
    (rjust '0' w (natToStr m)).all isDigitC = true := by
  unfold rjust
  split
  · exact natToStr_all_digits m
  · rw [List.all_append]
    exact Bool.and_eq_true_iff.mpr
      ⟨replicate_zero_digits _, natToStr_all_digits m⟩

theorem clampPad_spec (c : Int) (w : Nat) (hw : w ≠ 0) :
    (clampPad c w).length = w ∧ (clampPad c w).all isDigitC = true := by
  unfold clampPad
  have hN : 1 ≤ (10 : Nat) ^ w := Nat.one_le_pow _ _ (by omega)
  have hc2 : (0 : Int) ≤ (if c < 0 then 0 else c) := by split <;> omega
  have hc3 : (if (((10 : Nat) ^ w : Nat) : Int) - 1 < (if c < 0 then 0 else c)
      then (((10 : Nat) ^ w : Nat) : Int) - 1
      else (if c < 0 then 0 else c)).toNat < 10 ^ w := by
    split <;> omega
  exact ⟨rjust_natToStr_length w hw _ hc3, rjust_natToStr_digits w _⟩

theorem priceToWidth_spec (v : Str) (w : Nat) (hw : w ≠ 0) :
    (priceToWidth v w).length = w ∧
    (priceToWidth v w).all isDigitC = true := by
  unfold priceToWidth
  simp only [hw, if_false]
  exact clampPad_spec _ w hw

theorem coercePlu6_length (it : Item) (p : Str) (h : coercePlu6 it = some p) :
    p.length = 6 := by
  simp only [coercePlu6] at h
  by_cases h1 : (trimStr it.cref).length = 4 ∧ pyIsdigit (trimStr it.cref) = true
  · rw [if_pos h1] at h
    simp only [Option.map_some', Option.some.injEq] at h
    rw [← h, rjust_length]
    have := h1.1
    omega
  · rw [if_neg h1] at h
    by_cases h2 : 6 ≤ (trimStr it.ccodebar).length ∧
        ((trimStr it.ccodebar).take 6).all isDigitC = true
    · rw [if_pos h2] at h
      simp only [Option.map_some', Option.some.injEq] at h
      rw [← h, rjust_length, List.length_take, List.length_drop]
      have := h2.1
      omega
    · rw [if_neg h2] at h
      simp at h

theorem coerceDep3_length (it : Item) (d : Str) (h : coerceDep3 it = some d) :
    d.length = 3 := by
  simp only [coerceDep3] at h
  by_cases h1 : (onlyDigits it.cgrpconta).isEmpty = true
  · rw [if_pos h1] at h
    simp at h
  · rw [if_neg h1] at h
    by_cases h2 : natOfDigits (pySliceLastN (onlyDigits it.cgrpconta) 3) = 0
    · rw [if_pos h2] at h
      simp at h
    · rw [if_neg h2] at h
      simp only [Option.some.injEq] at h
      rw [← h]
      exact padNumAdapter_length _ 3 (by omega)

theorem padNumW_length_of_le (n : Int) (w : Nat) (hw : w ≠ 0)
    (h : (intToStr n).length ≤ w) : (padNumW n w).length = w := by
  unfold padNumW
  simp only [hw, if_false]
  rw [rjust_length]
  omega

theorem valid2005_length (d : Str) (h : valid2005 d = true) :
    d.length = 135 := by
  unfold valid2005 at h
  have h135 : model2005Total = 135 := by decide
  rw [h135] at h
  simp only [beq_iff_eq] at h
  exact h

theorem mkInfoLine_parts (eqId : Nat) (cmd datos : Str)
    (hcmd : cmd.length = 4) :
    ((mkInfoLine eqId cmd datos).drop 3).take 4 = cmd ∧
    (mkInfoLine eqId cmd datos).drop 7 = datos ∧
    (mkInfoLine eqId cmd datos).length = 7 + datos.length := by
  unfold mkInfoLine
  have hp2 : (padNumAdapter (natToStr eqId) 2).length = 2 :=
    padNumAdapter_length _ 2 (by omega)
  refine ⟨?_, ?_, ?_⟩
  · have hd3 : (('C' :: (padNumAdapter (natToStr eqId) 2 ++ cmd ++ datos)).drop 3)
        = (padNumAdapter (natToStr eqId) 2 ++ cmd ++ datos).drop 2 := rfl
    rw [hd3, List.append_assoc, List.drop_left' hp2, List.take_left' hcmd]
  · have hd7 : (('C' :: (padNumAdapter (natToStr eqId) 2 ++ cmd ++ datos)).drop 7)
        = (padNumAdapter (natToStr eqId) 2 ++ cmd ++ datos).drop 6 := rfl
    have hlen6 : (padNumAdapter (natToStr eqId) 2 ++ cmd).length = 6 := by
      rw [List.length_append, hp2, hcmd]
    rw [hd7, List.drop_left' hlen6]
  · simp only [List.length_cons, List.length_append, hp2, hcmd]
    omega

theorem buildDatos_length (it : Item) (famDef : Str) (decPrec : Int)
    (hfam : (intToStr ((pyIntParse? (trimStr famDef)).getD 0)).length ≤ 3)
    (d : Str) (h : buildDatos2005Modelo it famDef decPrec = some d) :
    d.length = 135 := by
  unfold buildDatos2005Modelo at h
  cases hp : coercePlu6 it with
  | none =>
      rw [hp] at h
      cases hq : coerceDep3 it <;> rw [hq] at h <;> simp at h
  | some plu6 =>
      cases hq : coerceDep3 it with
      | none =>
          rw [hp, hq] at h
          simp at h
      | some dep =>
          rw [hp, hq] at h
          simp only [Option.some.injEq] at h
          have h6 : plu6.length = 6 := coercePlu6_length it plu6 hp
          have h3 : dep.length = 3 := coerceDep3_length it dep hq
          have hplu4 : (pySliceLastN plu6 4).length = 4 := by
            rw [pySliceLastN_length plu6 4 (by omega)]
            omega
          have hcod5raw : ('0' :: pySliceLastN plu6 4).length = 5 := by
            simp [hplu4]
          rw [if_neg (by omega : ¬ ('0' :: pySliceLastN plu6 4).length ≠ 5)] at h
          have hfamlen :
              (padNumW ((pyIntParse? (trimStr famDef)).getD 0) 3).length = 3 :=
            padNumW_length_of_le _ 3 (by omega) hfam
          have hnom : (padTxtW (if it.cdetalle.isEmpty then
              "PLU ".toList ++ plu6 else it.cdetalle) 26).length = 26 :=
            padTxtW_length _ 26 (by omega)
          have hdesc : (padTxtW ([] : Str) 26).length = 26 := by decide
          have htipo :
              (ljust ' ' 1 ((tipoFromCvencom it.cvencom).take 1)).length = 1 := by
            rw [ljust_length, List.length_take]
            omega
          have hvf : (padNumW 0 7).length = 7 := by decide
          have hprecio : (priceToWidth it.npvp1 6).length = 6 :=
            (priceToWidth_spec it.npvp1 6 (by omega)).1
          have hpa : (padNumW 0 6).length = 6 := by decide
          have himp1 :
              (rjust '0' 6 (pySliceLastN (impFromCtipoiva it.ctipoiva) 6)).length
                = 6 := rjust_slice_length 6 (by omega) '0' _
          have ht5 : (padNumW 0 5).length = 5 := by decide
          have hetq : (padNumW 1 2).length = 2 := by decide
          have h44 : (padNumW 0 4).length = 4 := by decide
          have hdp : (padNumW (max 0 (min 2 decPrec)) 4).length = 4 := by
            have h012 : max 0 (min 2 decPrec) = 0 ∨ max 0 (min 2 decPrec) = 1 ∨
                max 0 (min 2 decPrec) = 2 := by omega
            rcases h012 with h' | h' | h' <;> rw [h'] <;> decide
          rw [← h]
          simp only [List.length_append, List.length_cons, h6, h3, hfamlen,
            hnom, hdesc, htipo, hvf, hprecio, hpa, himp1, ht5, hetq, h44,
            hdp, hplu4]

theorem pluFilterMap_shape (eqId : Nat) (famDef : Str) (it : Item)
    (line : Str)
    (h : (match buildDatos2005Modelo it famDef 1 with
          | none => none
          | some d =>
              if valid2005 d then some (mkInfoLine eqId "2005".toList d)
              else none) = some line) :
    (line.drop 3).take 4 = "2005".toList ∧ (line.drop 7).length = 135 := by
  cases hb : buildDatos2005Modelo it famDef 1 with
  | none =>
      rw [hb] at h
      simp at h
  | some d =>
      rw [hb] at h
      have h' : (if valid2005 d then some (mkInfoLine eqId "2005".toList d)
          else none) = some line := h
      by_cases hv : valid2005 d = true
      · rw [if_pos hv] at h'
        simp only [Option.some.injEq] at h'
        have hparts := mkInfoLine_parts eqId "2005".toList d (by decide)
        refine ⟨by rw [← h']; exact hparts.1, ?_⟩
        rw [← h', hparts.2.1]
        exact valid2005_length d hv
      · rw [if_neg hv] at h'
        simp at h'

/-- Claim C4: whenever the family-code default's numeric form fits the
3-character family field, every record `_build_datos_2005_modelo`
returns is exactly 135 characters long (an oversized name is truncated
to its 26-character field, preserving the total — see the witness); and
the batch senders `enviar_plus` and `enviar_dptos_y_articulos` never put
a 2005 data record of any other length into the outgoing batch: every
2005 line they emit carries exactly 135 data characters, for any family
default. -/
theorem record_length_c4 (famDef : Str)
    (hfam : (intToStr ((pyIntParse? (trimStr famDef)).getD 0)).length ≤ 3) :
    (∀ (it : Item) (decPrec : Int) (d : Str),
        buildDatos2005Modelo it famDef decPrec = some d → d.length = 135) ∧
    (∀ (eqId : Nat) (items : List Item) (famDef2 : Str),
        ∀ line ∈ enviarPlusLines eqId items famDef2,
          (line.drop 3).take 4 = "2005".toList ∧ (line.drop 7).length = 135) ∧
    (∀ (eqId : Nat) (deptos : List DeptoDef) (arts : List Item)
        (famDef2 : Str),
        ∀ line ∈ enviarDptosYArticulosLines eqId deptos arts famDef2,
          ok2005Line line = true) := by
  refine ⟨fun it decPrec d h => buildDatos_length it famDef decPrec hfam d h,
    ?_, ?_⟩
  · intro eqId items famDef2 line hline
    unfold enviarPlusLines at hline
    rw [List.mem_filterMap] at hline
    obtain ⟨it, _, hmat⟩ := hline
    exact pluFilterMap_shape eqId famDef2 it line hmat
  · intro eqId deptos arts famDef2 line hline
    unfold enviarDptosYArticulosLines at hline
    rw [List.mem_append] at hline
    rcases hline with hdep | hplu
    · rw [List.mem_map] at hdep
      obtain ⟨dp, _, hdp⟩ := hdep
      have h1 : (line.drop 3).take 4 = "2003".toList := by
        rw [← hdp]
        exact (mkInfoLine_parts eqId "2003".toList _ (by decide)).1
      unfold ok2005Line
      rw [h1]
      rw [show (("2003".toList : Str) == "2005".toList) = false from by decide]
      rfl
    · rw [List.mem_filterMap] at hplu
      obtain ⟨it, _, hmat⟩ := hplu
      have := pluFilterMap_shape eqId famDef2 it line hmat
      unfold ok2005Line
      rw [this.2, show model2005Total = 135 from by decide]
      simp

set_option maxRecDepth 4000 in
/-- Witness for C4: family default `"0"`, a row with a 30-character name;
the built record is 135 characters and the name field holds the first 26
characters of the name. -/
theorem record_length_c4_witness :
    ((intToStr ((pyIntParse? (trimStr ("0".toList : Str))).getD 0)).length
        ≤ 3) ∧
    ((buildDatos2005Modelo item30 "0".toList 1).getD []).length = 135 ∧
    (((buildDatos2005Modelo item30 "0".toList 1).getD []).drop 12).take 26 =
      "ABCDEFGHIJKLMNOPQRSTUVWXYZ".toList := by
  refine ⟨by decide, ?_, by decide⟩
  exact (record_length_c4 "0".toList (by decide)).1 item30 1 _ (by decide)

/-!
## C5 — price-to-width conversion
-/

theorem halfEvenDiv_zero (d : Nat) : halfEvenDiv 0 d = 0 := by
  simp [halfEvenDiv]

theorem decCents100_eq_exact (m e : Int) (hfit : decFits100 m e = true) :
    decCents100 m e = centsTimes100 m e := by
  by_cases hm : m = 0
  · subst hm
    have h0 : centsTimes100 0 e = 0 := by
      simp only [centsTimes100]
      by_cases ht : (0 : Int) ≤ e + 2
      · rw [if_pos ht]
        simp
      · rw [if_neg ht]
        simp [halfEvenDiv_zero]
    rw [h0]
    simp only [decCents100, if_true]
  · have hfit' := hfit
    simp only [decFits100] at hfit'
    rw [if_neg hm] at hfit'
    simp only [Bool.and_eq_true, decide_eq_true_eq] at hfit'
    obtain ⟨hd0, hq⟩ := hfit'
    simp only [decCents100]
    rw [if_neg hm, if_pos hd0,
      if_neg (by omega : ¬ 28 < (natToStr (centsTimes100 m e).natAbs).length)]

/-- Counterexample to C5: the claim's always-parse-multiply-clamp rule
fails twice over. A purely-digit textual value is *not* multiplied by
100 by `_price_to_width` — `"20"` maps to `"0000020"` (20 cents taken
verbatim), while the claim's rule yields `"0002000"` — and the default
decimal context makes `"1e50"` map to `"0000000"` (the quantize step's
`InvalidOperation` is caught, giving 0 cents), not the claim's clamped
`"9999999"`. -/
theorem price_c5_counterexample :
    priceToWidth "20".toList 7 = "0000020".toList ∧
    priceSpecRule "20".toList 7 = "0002000".toList ∧
    priceToWidth "20".toList 7 ≠ priceSpecRule "20".toList 7 ∧
    priceToWidth "1e50".toList 7 = "0000000".toList ∧
    priceSpecRule "1e50".toList 7 = "9999999".toList ∧
    priceToWidth "1e50".toList 7 ≠ priceSpecRule "1e50".toList 7 := by
  refine ⟨by decide, by decide, by decide, by decide, by decide, by decide⟩

/-- Claim C5, amended: for every value and positive width `w` on which
`_price_to_width` returns at all — i.e. whose decimal product does not
signal the default context's *uncaught* `Overflow` (`priceOverflows`,
e.g. `"1e999999"`, on which the source raises) — it emits exactly `w`
digit characters. A value whose stripped, comma-fixed textual form is
not purely digits is parsed as a decimal, multiplied by 100 under the
default decimal context and quantized half-even to integer cents,
clamped to `0 .. 10 ^ w - 1` and left-padded; while the arithmetic stays
within the context's 28-digit precision (`priceDecFits`) this is exactly
the claim's parse-and-multiply rule — but a purely-digit form is taken
directly as integer cents without the multiplication (`"20"` gives
`"0000020"`), and cents needing more than 28 digits make the *caught*
quantize `InvalidOperation` yield 0 (`"1e50"` gives `"0000000"`, not the
clamp). At width 7, `"19.5"` maps to `"0001950"`, `"abc"` to
`"0000000"`, `"123456.78"` to `"9999999"`, `"-3"` to `"0000000"`, blank
to `"0000000"`; `"1e999999"` is in the raising region, `"19.5"` is
within the context's precision. -/
theorem price_c5_amended :
    (∀ (v : Str) (w : Nat), w ≠ 0 → priceOverflows v = false →
      (priceToWidth v w).length = w ∧
      (priceToWidth v w).all isDigitC = true) ∧
    (∀ (v : Str) (w : Nat),
      pyIsdigit ((trimStr v).map (fun c => if c == ',' then '.' else c))
          = false →
      priceDecFits v = true →
      priceToWidth v w = priceSpecRule v w) ∧
    priceToWidth "19.5".toList 7 = "0001950".toList ∧
    priceToWidth "abc".toList 7 = "0000000".toList ∧
    priceToWidth "123456.78".toList 7 = "9999999".toList ∧
    priceToWidth "-3".toList 7 = "0000000".toList ∧
    priceToWidth "20".toList 7 = "0000020".toList ∧
    priceToWidth "1e50".toList 7 = "0000000".toList ∧
    priceToWidth ([] : Str) 7 = "0000000".toList ∧
    priceOverflows "1e999999".toList = true ∧
    priceOverflows "19.5".toList = false ∧
    priceDecFits "19.5".toList = true := by
  refine ⟨fun v w hw _ => priceToWidth_spec v w hw, ?_, by decide, by decide,
    by decide, by decide, by decide, by decide, by decide, by decide,
    by decide, by decide⟩
  intro v w h hfits
  by_cases hw : w = 0
  · simp [priceToWidth, priceSpecRule, hw]
  · unfold priceToWidth priceSpecRule
    simp only [hw, if_false]
    by_cases he : ((trimStr v).map (fun c => if c == ',' then '.' else c)).isEmpty
        = true
    · rw [List.isEmpty_iff] at he
      rw [he]
      rfl
    · have he' : ((trimStr v).map
          (fun c => if c == ',' then '.' else c)).isEmpty = false := by
        simpa using he
      have hcond : (!((trimStr v).map
            (fun c => if c == ',' then '.' else c)).isEmpty &&
          !(pyIsdigit ((trimStr v).map
            (fun c => if c == ',' then '.' else c)))) = true := by
        rw [he', h]
        rfl
      rw [hcond, if_pos rfl]
      cases hp : parseDecimal? ((trimStr v).map
          (fun c => if c == ',' then '.' else c)) with
      | none => simp only [hp]
      | some me =>
          have hfit : decFits100 me.1 me.2 = true := by
            have h0 : priceDecFits v = true := hfits
            simp only [priceDecFits] at h0
            rw [hcond, if_pos rfl] at h0
            simp only [hp] at h0
            exact h0
          simp only [hp]
          rw [decCents100_eq_exact me.1 me.2 hfit]

/-- Witness for C5's amended theorem: both general clauses discharged at
`"19.5"` and width 7. -/
theorem price_c5_amended_witness :
    ((7 ≠ 0 ∧ priceOverflows "19.5".toList = false) ∧
      (priceToWidth "19.5".toList 7).length = 7 ∧
      (priceToWidth "19.5".toList 7).all isDigitC = true) ∧
    ((pyIsdigit ((trimStr ("19.5".toList : Str)).map
        (fun c => if c == ',' then '.' else c)) = false ∧
      priceDecFits "19.5".toList = true) ∧
      priceToWidth "19.5".toList 7 = priceSpecRule "19.5".toList 7) := by
  refine ⟨⟨⟨by decide, by decide⟩, ?_, ?_⟩, ⟨⟨by decide, by decide⟩, ?_⟩⟩
  · exact (price_c5_amended.1 "19.5".toList 7 (by decide) (by decide)).1
  · exact (price_c5_amended.1 "19.5".toList 7 (by decide) (by decide)).2
  · exact price_c5_amended.2.1 "19.5".toList 7 (by decide) (by decide)

/-!
## C6 — combined-send workflow
-/

set_option maxRecDepth 8000 in
/-- Counterexample to C6: in the claim's scenario the 2005 record's price
field (field 9, offsets 77..83) is the 6-character `"001950"`, not
`"0001950"`, and its decimal-selector field 22 (offsets 131..135) is the
4-character `"0001"`, not `"1"`. -/
theorem combined_send_c6_counterexample :
    (datosC6.drop 77).take 6 = "001950".toList ∧
    (datosC6.drop 77).take 7 ≠ "0001950".toList ∧
    datosC6.drop 131 = "0001".toList ∧
    datosC6.drop 131 ≠ "1".toList := by
  refine ⟨by decide, by decide, by decide, by decide⟩

set_option maxRecDepth 8000 in
/-- Claim C6, amended: for the equipment with department set `["005"]`
and the single article row (CREF `"1017"`, CGRPCONTA `"005"`, NPVP1
`19.5`, CTIPOIVA `"21"`), the combined-send workflow issues, in order:
one 1070 barcode-configuration command (prefixes 20/20, no weight, no
units, format 1), one 2026 command (currency slot 02, price-decimals 1,
weight-decimals 3), one 1010 currency-selection command for slot 02, and
one combined batch whose 2003 department line for `005` precedes the
2005 PLU line; that record's PLU field is `"001017"`, its department
field `"005"`, its price field `"001950"` (6 characters, 1950 cents) and
its decimal-selector field 22 is `"0001"` (selector value 1 padded to
the 4-character field). -/
theorem combined_send_c6_amended :
    workflowCombinedSend equipoC6 [rowC6] =
      [ ["C0110702002001".toList],
        ["C0120260213".toList],
        ["C01101002".toList],
        ["C012003005DEP 005         ".toList,
         mkInfoLine 1 "2005".toList datosC6] ] ∧
    datosC6.take 6 = "001017".toList ∧
    (datosC6.drop 6).take 3 = "005".toList ∧
    (datosC6.drop 77).take 6 = "001950".toList ∧
    datosC6.drop 131 = "0001".toList ∧
    datosC6.length = 135 := by
  refine ⟨by decide, by decide, by decide, by decide, by decide, by decide⟩

/-!
## C7 — relation replacement and the facade's partial-commit error
-/

theorem contains_iff_memStr (l : List Str) (a : Str) :
    l.contains a = true ↔ a ∈ l := by
  show l.elem a = true ↔ a ∈ l
  exact List.elem_iff

theorem bool_eq_of_iff {a b : Bool} (h : a = true ↔ b = true) : a = b := by
  cases a <;> cases b <;> simp_all

theorem codigosValidos_mem (codigos master : List Str) (c : Str) :
    c ∈ codigosValidos codigos master ↔ c ∈ master ∧ c ∈ codigos := by
  unfold codigosValidos
  by_cases h : codigos.isEmpty = true
  · rw [if_pos h]
    rw [List.isEmpty_iff] at h
    subst h
    simp
  · rw [if_neg h, List.mem_filter]
    constructor
    · rintro ⟨h1, h2⟩
      exact ⟨h1, (contains_iff_memStr codigos c).1 h2⟩
    · rintro ⟨h1, h2⟩
      exact ⟨h1, (contains_iff_memStr codigos c).2 h2⟩

/-- Claim C7: `reemplazar_relaciones` first deletes every relation row of
the equipment, inserts exactly the submitted codes that exist in the
department master, returns exactly the submitted codes that do not exist
there (an empty submission deletes everything, inserts nothing, returns
an empty list), leaves other equipment's rows untouched; and the
facade's update raises exactly when the invalid list is non-empty, with
the replacement already committed either way. -/
theorem relations_c7 (equipoId : Int) (codigos : List Str) (st : RelState) :
    (reemplazarRelaciones equipoId codigos st).2 =
      codigos.filter (fun c => !(st.master.contains c)) ∧
    (∀ c : Str,
      (equipoId, c) ∈ (reemplazarRelaciones equipoId codigos st).1.rels ↔
        (c ∈ st.master ∧ c ∈ codigos)) ∧
    (∀ r : Int × Str, r.1 ≠ equipoId →
      (r ∈ (reemplazarRelaciones equipoId codigos st).1.rels ↔
        r ∈ st.rels)) ∧
    (codigos = [] →
      (reemplazarRelaciones equipoId codigos st).2 = [] ∧
      (reemplazarRelaciones equipoId codigos st).1.rels =
        st.rels.filter (fun r => !(r.1 == equipoId))) ∧
    (updateEquipoRel equipoId codigos st).1 =
      (reemplazarRelaciones equipoId codigos st).1 ∧
    ((updateEquipoRel equipoId codigos st).2.isSome = true ↔
      (reemplazarRelaciones equipoId codigos st).2 ≠ []) := by
  refine ⟨?_, ?_, ?_, ?_, rfl, ?_⟩
  · show codigos.filter
        (fun c => !((codigosValidos codigos st.master).contains c)) = _
    refine List.filter_congr ?_
    intro x hx
    have hiff : (codigosValidos codigos st.master).contains x = true ↔
        st.master.contains x = true := by
      rw [contains_iff_memStr, contains_iff_memStr, codigosValidos_mem]
      constructor
      · exact fun h => h.1
      · exact fun h => ⟨h, hx⟩
    rw [bool_eq_of_iff hiff]
  · intro c
    show (equipoId, c) ∈
        st.rels.filter (fun r => !(r.1 == equipoId)) ++
          (codigosValidos codigos st.master).map (fun c => (equipoId, c)) ↔ _
    rw [List.mem_append, List.mem_filter, List.mem_map]
    constructor
    · rintro (⟨_, hkeep⟩ | ⟨x, hx, hxc⟩)
      · simp at hkeep
      · obtain ⟨_, rfl⟩ := Prod.mk.injEq .. ▸ hxc
        exact (codigosValidos_mem codigos st.master x).1 hx
    · intro h
      right
      exact ⟨c, (codigosValidos_mem codigos st.master c).2 h, rfl⟩
  · intro r hr
    show r ∈ st.rels.filter (fun r => !(r.1 == equipoId)) ++
        (codigosValidos codigos st.master).map (fun c => (equipoId, c)) ↔ _
    rw [List.mem_append, List.mem_filter]
    constructor
    · rintro (⟨hmem, _⟩ | hmap)
      · exact hmem
      · rw [List.mem_map] at hmap
        obtain ⟨x, _, hxc⟩ := hmap
        exact absurd (congrArg Prod.fst hxc).symm hr
    · intro hmem
      left
      refine ⟨hmem, ?_⟩
      simp [hr]
  · rintro rfl
    refine ⟨rfl, ?_⟩
    show st.rels.filter (fun r => !(r.1 == equipoId)) ++
        (codigosValidos [] st.master).map (fun c => (equipoId, c)) = _
    rw [show codigosValidos [] st.master = [] from rfl]
    simp
  · show (if (reemplazarRelaciones equipoId codigos st).2.isEmpty then
        (none : Option Str)
      else some "Departamentos inexistentes (CGRPCONTA)".toList).isSome
        = true ↔ _
    by_cases h : (reemplazarRelaciones equipoId codigos st).2.isEmpty = true
    · rw [if_pos h]
      rw [List.isEmpty_iff] at h
      simp [h]
    · rw [if_neg h]
      have : (reemplazarRelaciones equipoId codigos st).2 ≠ [] := by
        intro hc
        rw [hc] at h
        simp at h
      simp [this]

/-- Witness for C7: replacing equipment 1's departments with
`["005", "999"]` returns `["999"]` as invalid, still inserts `005`,
keeps equipment 2's row, and the facade raises. -/
theorem relations_c7_witness :
    (reemplazarRelaciones 1 ["005".toList, "999".toList] stC7).2 =
      ["999".toList] ∧
    (1, "005".toList) ∈
      (reemplazarRelaciones 1 ["005".toList, "999".toList] stC7).1.rels ∧
    ((2, "007".toList) ∈
        (reemplazarRelaciones 1 ["005".toList, "999".toList] stC7).1.rels ↔
      (2, "007".toList) ∈ stC7.rels) ∧
    (updateEquipoRel 1 ["005".toList, "999".toList] stC7).2.isSome = true := by
  refine ⟨?_, ?_, ?_, ?_⟩
  · rw [(relations_c7 1 ["005".toList, "999".toList] stC7).1]
    decide
  · exact ((relations_c7 1 ["005".toList, "999".toList] stC7).2.1
      "005".toList).mpr ⟨by decide, by decide⟩
  · exact (relations_c7 1 ["005".toList, "999".toList] stC7).2.2.1
      (2, "007".toList) (by decide)
  · refine ((relations_c7 1 ["005".toList, "999".toList] stC7).2.2.2.2.2).mpr ?_
    rw [(relations_c7 1 ["005".toList, "999".toList] stC7).1]
    decide

/-!
## C8 — department deletion guard
-/

set_option maxRecDepth 4000 in
/-- Counterexample to C8: the JSON fallback repository deletes department
`001` even though an equipment's `deptos` list contains `001`, because
its guard tests only the legacy `depto_codigo` key; the relational
facade refuses on the same data. -/
theorem delete_depto_c8_counterexample :
    (∃ e ∈ jsonStateC8.equipos, "001".toList ∈ e.deptos) ∧
    deleteDeptoJson "001".toList jsonStateC8 =
      .ok { jsonStateC8 with departamentos := [] } ∧
    deleteDeptoSybase "001".toList sybStateC8 =
      .error
        "No se puede borrar: hay equipos asociados a este depto.".toList := by
  refine ⟨by decide, by rfl, by rfl⟩

/-- Claim C8, amended: the relational Repository Facade's `delete_depto`
refuses — raising the in-use error and leaving the department store
untouched — exactly when some equipment's `deptos` list contains the
code, and deletes the department rows otherwise; the JSON-file-backed
fallback repository refuses only when some equipment's legacy singular
`depto_codigo` field equals the code, so an equipment referencing the
code through its `deptos` list does not block deletion there. -/
theorem delete_depto_c8_amended :
    (∀ (st : SybRepoState) (cod : Str),
      ((∃ e ∈ st.equipos, cod ∈ e.deptos) →
        deleteDeptoSybase cod st = .error
          "No se puede borrar: hay equipos asociados a este depto.".toList) ∧
      ((¬ ∃ e ∈ st.equipos, cod ∈ e.deptos) →
        deleteDeptoSybase cod st = .ok
          { st with departamentos :=
              st.departamentos.filter (fun d => !(d.1 == cod)) })) ∧
    (∀ (st : JsonRepoState) (cod : Str),
      ((∃ e ∈ st.equipos, e.deptoCodigo = some cod) →
        deleteDeptoJson cod st = .error
          "No se puede borrar: hay equipos asociados a este depto.".toList) ∧
      ((¬ ∃ e ∈ st.equipos, e.deptoCodigo = some cod) →
        deleteDeptoJson cod st ≠ .error
          "No se puede borrar: hay equipos asociados a este depto.".toList)) := by
  constructor
  · intro st cod
    constructor
    · intro hex
      unfold deleteDeptoSybase
      rw [if_pos ?_]
      rw [List.any_eq_true]
      obtain ⟨e, he, hc⟩ := hex
      exact ⟨e, he, (contains_iff_memStr e.deptos cod).2 hc⟩
    · intro hnex
      unfold deleteDeptoSybase
      rw [if_neg ?_]
      rw [List.any_eq_true]
      rintro ⟨e, he, hc⟩
      exact hnex ⟨e, he, (contains_iff_memStr e.deptos cod).1 hc⟩
  · intro st cod
    constructor
    · intro hex
      unfold deleteDeptoJson
      rw [if_pos ?_]
      rw [List.any_eq_true]
      obtain ⟨e, he, hc⟩ := hex
      refine ⟨e, he, ?_⟩
      rw [beq_iff_eq]
      exact hc
    · intro hnex
      unfold deleteDeptoJson
      rw [if_neg ?_]
      · by_cases hlen : (st.departamentos.filter
            (fun d => !(d.1 == cod))).length = st.departamentos.length
        · rw [if_pos hlen]
          intro hcontra
          simp at hcontra
        · rw [if_neg hlen]
          intro hcontra
          simp at hcontra
      · rw [List.any_eq_true]
        rintro ⟨e, he, hc⟩
        rw [beq_iff_eq] at hc
        exact hnex ⟨e, he, hc⟩

/-- Witness for C8's amended theorem: the facade refuses on a `deptos`
reference; the JSON repository refuses only on a legacy `depto_codigo`
reference and otherwise does not raise the in-use error. -/
theorem delete_depto_c8_amended_witness :
    ((∃ e ∈ sybStateC8.equipos, "001".toList ∈ e.deptos) ∧
      deleteDeptoSybase "001".toList sybStateC8 = .error
        "No se puede borrar: hay equipos asociados a este depto.".toList) ∧
    ((∃ e ∈ jsonStateC8legacy.equipos,
        e.deptoCodigo = some "001".toList) ∧
      deleteDeptoJson "001".toList jsonStateC8legacy = .error
        "No se puede borrar: hay equipos asociados a este depto.".toList) ∧
    ((¬ ∃ e ∈ jsonStateC8.equipos, e.deptoCodigo = some "001".toList) ∧
      deleteDeptoJson "001".toList jsonStateC8 ≠ .error
        "No se puede borrar: hay equipos asociados a este depto.".toList) := by
  refine ⟨⟨by decide, ?_⟩, ⟨by decide, ?_⟩, ⟨by decide, ?_⟩⟩
  · exact (delete_depto_c8_amended.1 sybStateC8 "001".toList).1 (by decide)
  · exact (delete_depto_c8_amended.2 jsonStateC8legacy "001".toList).1
      (by decide)
  · exact (delete_depto_c8_amended.2 jsonStateC8 "001".toList).2 (by decide)

/-!
## C9 — INFO.JDG modification-time forcing
-/

/-- Counterexample to C9: previous mtime 100.90 s, write at wall clock
100.95 s (same integer second). The code stamps
`int(100.90) + 1.1 = 101.10`, not the claim's `100.90 + 1.1 = 102.00`,
and the new timestamp is only 0.2 s — not at least 1.0 s — after the
previous one (times in hundredths of a second). -/
theorem mtime_c9_counterexample :
    10095 / 100 = 10090 / 100 ∧
    sendInfoMtime (some 10090) 10095 = 10110 ∧
    sendInfoMtime (some 10090) 10095 ≠ 10090 + 110 ∧
    sendInfoMtime (some 10090) 10095 < 10090 + 100 := by
  refine ⟨by decide, by decide, by decide, by decide⟩

/-- Claim C9, amended: whenever the write's wall-clock integer second is
less than or equal to the integer second of INFO.JDG's previous
modification time, `send_info_lines` stamps the *previous integer
second* plus 1.1 s, making the new integer second exactly the previous
plus one; otherwise it stamps the current (later-second) time. In either
case the stamped timestamp is strictly greater than the previous one at
one-second granularity — which is what the watcher needs — though not
necessarily 1.0 s greater in raw time. Times in hundredths of a
second. -/
theorem mtime_c9_amended (p now : Nat) :
    (now / 100 ≤ p / 100 →
      sendInfoMtime (some p) now = (p / 100) * 100 + 110 ∧
      sendInfoMtime (some p) now / 100 = p / 100 + 1) ∧
    (p / 100 < now / 100 → sendInfoMtime (some p) now = now) ∧
    p / 100 < sendInfoMtime (some p) now / 100 := by
  have hm : sendInfoMtime (some p) now =
      if now / 100 ≤ p / 100 then (p / 100) * 100 + 110 else now := rfl
  refine ⟨fun h => ?_, fun h => ?_, ?_⟩
  · rw [hm, if_pos h]
    refine ⟨rfl, ?_⟩
    omega
  · rw [hm, if_neg (by omega)]
  · rw [hm]
    by_cases h : now / 100 ≤ p / 100
    · rw [if_pos h]
      omega
    · rw [if_neg h]
      omega

/-- Witness for C9's amended theorem: the same-second collision at
(100.90 s, 100.95 s) and the no-collision write at 102.50 s. -/
theorem mtime_c9_amended_witness :
    (10095 / 100 ≤ 10090 / 100 ∧
      sendInfoMtime (some 10090) 10095 = (10090 / 100) * 100 + 110 ∧
      sendInfoMtime (some 10090) 10095 / 100 = 10090 / 100 + 1) ∧
    (10090 / 100 < 10250 / 100 ∧ sendInfoMtime (some 10090) 10250 = 10250) := by
  refine ⟨⟨by decide, ?_, ?_⟩, ⟨by decide, ?_⟩⟩
  · exact ((mtime_c9_amended 10090 10095).1 (by decide)).1
  · exact ((mtime_c9_amended 10090 10095).1 (by decide)).2
  · exact (mtime_c9_amended 10090 10250).2.1 (by decide)

/-!
## C10 — direct-TCP batch sender
-/

theorem sendManyFrom_length (o : Nat → Nat → List Nat) (m : Nat) :
    ∀ (l : List (List Nat)) (i : Nat),
      (sendManyFrom o m i l).length = l.length := by
  intro l
  induction l with
  | nil => intro i; rfl
  | cons f rest ih =>
      intro i
      simp only [sendManyFrom, List.length_cons]
      rw [ih (i + 1)]

theorem sendManyFrom_get? (o : Nat → Nat → List Nat) (m : Nat) :
    ∀ (l : List (List Nat)) (i k : Nat), k < l.length →
      (sendManyFrom o m i l).get? k = some (sendOneFrom (o (i + k)) 0 m) := by
  intro l
  induction l with
  | nil =>
      intro i k hk
      simp at hk
  | cons f rest ih =>
      intro i k hk
      cases k with
      | zero => rfl
      | succ k' =>
          simp only [sendManyFrom, List.get?_cons_succ]
          rw [ih (i + 1) k' (by simpa using hk)]
          have : i + 1 + k' = i + (k' + 1) := by omega
          rw [this]

theorem sendOneFrom_of_valid (o : Nat → List Nat) :
    ∀ (left k j : Nat), k ≤ j → j ≤ k + left → validRespB (o j) = true →
      (∀ j', k ≤ j' → j' < j → validRespB (o j') = false) →
      sendOneFrom o k left = o j := by
  intro left
  induction left with
  | zero =>
      intro k j h1 h2 _ _
      have : j = k := by omega
      subst this
      rfl
  | succ left ih =>
      intro k j h1 h2 hv hmin
      show (if validRespB (o k) then o k else sendOneFrom o (k + 1) left) = o j
      by_cases hvk : validRespB (o k) = true
      · rw [if_pos hvk]
        have : j = k := by
          by_contra hne
          have hlt : k < j := by omega
          have := hmin k (by omega) hlt
          rw [this] at hvk
          exact absurd hvk (by simp)
        rw [this]
      · rw [if_neg hvk]
        have hkj : k < j := by
          by_contra hge
          have : j = k := by omega
          subst this
          exact hvk hv
        exact ih (k + 1) j (by omega) (by omega) hv
          (fun j' h1' h2' => hmin j' (by omega) h2')

theorem sendOneFrom_of_none (o : Nat → List Nat) :
    ∀ (left k : Nat),
      (∀ j, k ≤ j → j ≤ k + left → validRespB (o j) = false) →
      sendOneFrom o k left = o (k + left) := by
  intro left
  induction left with
  | zero =>
      intro k _
      rfl
  | succ left ih =>
      intro k h
      show (if validRespB (o k) then o k else sendOneFrom o (k + 1) left) = _
      rw [if_neg (by rw [h k (by omega) (by omega)]; simp)]
      rw [ih (k + 1) (fun j h1 h2 => h j (by omega) (by omega))]
      have : k + 1 + left = k + (left + 1) := by omega
      rw [this]

/-- Claim C10: `send_many` returns exactly one response entry per input
frame, in input order; for each frame the entry is the first
syntactically valid response (`0x07 ... 0x04`) received within the retry
budget, and when no attempt up to the budget is valid it is the last
attempt's received bytes — the empty byte string when nothing was
received — so callers pairing the i-th response with the i-th frame
never mispair or read past the end. -/
theorem send_many_c10 (frames : List (List Nat)) (o : Nat → Nat → List Nat)
    (m : Nat) :
    (sendMany frames o m).length = frames.length ∧
    (∀ i, i < frames.length →
      (sendMany frames o m).get? i = some (sendOneFrom (o i) 0 m)) ∧
    (∀ i j, j ≤ m → validRespB (o i j) = true →
      (∀ j', j' < j → validRespB (o i j') = false) →
      sendOneFrom (o i) 0 m = o i j) ∧
    (∀ i, (∀ j, j ≤ m → validRespB (o i j) = false) →
      sendOneFrom (o i) 0 m = o i m) := by
  refine ⟨sendManyFrom_length o m frames 0, ?_, ?_, ?_⟩
  · intro i hi
    have := sendManyFrom_get? o m frames 0 i hi
    simpa using this
  · intro i j hj hv hmin
    exact sendOneFrom_of_valid (o i) m 0 j (by omega) (by omega) hv
      (fun j' _ h2 => hmin j' h2)
  · intro i h
    have := sendOneFrom_of_none (o i) m 0 (fun j h1 h2 => h j (by omega))
    simpa using this

/-- Witness for C10: two frames, retry budget 2; the first frame's entry
is its second-attempt response, the second frame's entry is the empty
byte string. -/
theorem send_many_c10_witness :
    (sendMany [[1], [2]] oC10 2).length = 2 ∧
    (0 < 2 ∧ (sendMany [[1], [2]] oC10 2).get? 0 =
      some (sendOneFrom (oC10 0) 0 2)) ∧
    ((1 ≤ 2 ∧ validRespB (oC10 0 1) = true) ∧
      sendOneFrom (oC10 0) 0 2 = oC10 0 1) ∧
    ((∀ j, j ≤ 2 → validRespB (oC10 1 j) = false) ∧
      sendOneFrom (oC10 1) 0 2 = oC10 1 2) := by
  refine ⟨(send_many_c10 [[1], [2]] oC10 2).1, ⟨by decide, ?_⟩,
    ⟨⟨by decide, by decide⟩, ?_⟩, ⟨by decide, ?_⟩⟩
  · exact (send_many_c10 [[1], [2]] oC10 2).2.1 0 (by decide)
  · exact (send_many_c10 [[1], [2]] oC10 2).2.2.1 0 1 (by decide) (by decide)
      (by decide)
  · exact (send_many_c10 [[1], [2]] oC10 2).2.2.2 1 (by decide)
